import Mathlib

set_option maxRecDepth 100000

/-!
# Verification of the SCP core (quorum calculus, ballot and nomination protocols)

This development shallowly embeds the consensus core described by the
repository: the quorum calculus of `LocalNode` (`isQuorumSlice`,
`isVBlocking`, `isQuorum`, `getNodeWeight`), the per-slot ballot protocol
(PREPARE / CONFIRM / EXTERNALIZE state machine) and the nomination
protocol, together with the test harness (`TestSCP`) of
`src/scp/SCPTests.cpp`.

Only `SCPTests.cpp` and `LocalNode.h` are available as sources; the
member-function bodies of `LocalNode`, `BallotProtocol`,
`NominationProtocol` and `Slot` are not part of the source tree.  Those
operations are therefore modelled from the specification (each such
definition carries a doc comment starting with `Modelled from the
spec:`), and are calibrated against the concrete behaviour that
`SCPTests.cpp` requires of them (the `REQUIRE` assertions fix the exact
envelope traces).

Conventions of the embedding:
* `NodeID` and `Value` are natural numbers.  The tests create values
  `xValue < yValue < zValue`; we model them as `0 < 1 < 2`.
* Hashing is modelled as injective: a quorum-set hash is represented by
  the quorum set it digests, and signatures are omitted (the tests
  always sign correctly and the model has no transport).
* The model is per-slot (slots are independent; all test scenarios run
  on slot 0).
-/

/-- Node identity (a 256-bit public key in the source, modelled as `Nat`). -/
abbrev NodeID : Type := Nat

/-- Opaque consensus value, totally ordered (bytewise in the source,
numerically here). -/
abbrev Value : Type := Nat

/-- The three seed values of `SCPTests.cpp` (`CREATE_VALUE(x/y/z)`); the
tests require `xValue < yValue` and use `x < y < z`. -/
def xValue : Value := 0

/-- Second seed value, see `xValue`. -/
def yValue : Value := 1

/-- Third seed value, see `xValue`. -/
def zValue : Value := 2

/-- `SCPBallot`: a pair `(counter, value)`, ordered lexicographically. -/
structure SCPBallot where
  counter : Nat
  value : Value
deriving DecidableEq, Repr

/-- Strict lexicographic order on ballots: `(n,v) < (n',v')` iff `n < n'`
or (`n = n'` and `v < v'`). -/
def ballotLt (a b : SCPBallot) : Bool :=
  Nat.blt a.counter b.counter ||
    (a.counter == b.counter && Nat.blt a.value b.value)

/-- Non-strict lexicographic order on ballots. -/
def ballotLe (a b : SCPBallot) : Bool :=
  ballotLt a b || a == b

/-- Two ballots are compatible when they carry the same value. -/
def ballotCompatible (a b : SCPBallot) : Bool :=
  (a.value == b.value : Bool)

mutual
/-- `SCPQuorumSet`: recursive trust structure `(threshold, validators,
innerSets)`.  The nested list of inner sets is encoded by the mutual
type `SCPQuorumSetList` so that structural recursion and induction stay
elementary. -/
inductive SCPQuorumSet : Type where
  | mk (threshold : Nat) (validators : List NodeID) (innerSets : SCPQuorumSetList)

/-- List of inner quorum sets (mutual companion of `SCPQuorumSet`). -/
inductive SCPQuorumSetList : Type where
  | nil : SCPQuorumSetList
  | cons (q : SCPQuorumSet) (rest : SCPQuorumSetList) : SCPQuorumSetList
end

/-- Threshold field accessor of `SCPQuorumSet`. -/
def SCPQuorumSet.threshold : SCPQuorumSet → Nat
  | .mk t _ _ => t

/-- Number of inner sets in an `SCPQuorumSetList`. -/
def qlistLength : SCPQuorumSetList → Nat
  | .nil => 0
  | .cons _ rest => qlistLength rest + 1

mutual
/-- Boolean equality on quorum sets (hashes are modelled as the quorum
sets themselves, so statement equality needs this). -/
def qsetBeq : SCPQuorumSet → SCPQuorumSet → Bool
  | .mk t1 v1 i1, .mk t2 v2 i2 => t1 == t2 && v1 == v2 && qlistBeq i1 i2

/-- Boolean equality on lists of quorum sets. -/
def qlistBeq : SCPQuorumSetList → SCPQuorumSetList → Bool
  | .nil, .nil => true
  | .cons q1 r1, .cons q2 r2 => qsetBeq q1 q2 && qlistBeq r1 r2
  | .nil, .cons _ _ => false
  | .cons _ _, .nil => false
end

mutual
/-- All validator leaves of a quorum set (transitive, with
multiplicity), as used by `LocalNode::forAllNodes`. -/
def qLeaves : SCPQuorumSet → List NodeID
  | .mk _ vs inner => vs ++ qlistLeaves inner

/-- Leaves of a list of quorum sets. -/
def qlistLeaves : SCPQuorumSetList → List NodeID
  | .nil => []
  | .cons q rest => qLeaves q ++ qlistLeaves rest
end

mutual
/-- Modelled from the spec: `LocalNode::isQuorumSlice` (its body,
`isQuorumSliceInternal`, is not in the source tree).  True iff at least
`threshold` members among `validators ∪ innerSets` are satisfied by the
node set `s`: a validator is satisfied iff it is in `s`, an inner set
iff it recursively forms a slice of `s`. -/
def isQuorumSlice : SCPQuorumSet → List NodeID → Bool
  | .mk t vs inner, s =>
    decide (t ≤ vs.countP (fun v => decide (v ∈ s)) + sliceSatCount inner s)

/-- Number of inner sets of the list satisfied by `s` (slice sense). -/
def sliceSatCount : SCPQuorumSetList → List NodeID → Nat
  | .nil, _ => 0
  | .cons q rest, s =>
    (if isQuorumSlice q s then 1 else 0) + sliceSatCount rest s
end

mutual
/-- Modelled from the spec: `LocalNode::isVBlocking` (its body,
`isVBlockingInternal`, is not in the source tree).  Per the spec,
"removing S from Q's members drops it below what is needed to *not*
form a slice": with `n` members and threshold `t`, the set `s` is
v-blocking iff at least `n - t + 1` members are hit by `s` (a validator
is hit iff it is in `s`, an inner set iff `s` is recursively v-blocking
for it).  A quorum set with `threshold = 0` has no v-blocking set.
Calibrated against the `vblocking and quorum` test: for
`{threshold=3, validators=[v0..v3]}`, `[v0]` is not v-blocking and
`[v0,v2]` is. -/
def isVBlocking : SCPQuorumSet → List NodeID → Bool
  | .mk t vs inner, s =>
    if t == 0 then false
    else
      decide (vs.length + qlistLength inner + 1 - t ≤
        vs.countP (fun v => decide (v ∈ s)) + vbSatCount inner s)

/-- Number of inner sets of the list blocked by `s`. -/
def vbSatCount : SCPQuorumSetList → List NodeID → Nat
  | .nil, _ => 0
  | .cons q rest, s =>
    (if isVBlocking q s then 1 else 0) + vbSatCount rest s
end

/-- The complement of a node set within the validator leaves of a quorum
set (the universe of the quorum-calculus duality). -/
def complementOf (q : SCPQuorumSet) (s : List NodeID) : List NodeID :=
  (qLeaves q).filter (fun v => decide (v ∉ s))

/-- Modelled from the spec: `LocalNode::buildSingletonQSet` — the
quorum set `{threshold=1, validators=[nodeID], innerSets=[]}`. -/
def buildSingletonQSet (nodeID : NodeID) : SCPQuorumSet :=
  .mk 1 [nodeID] .nil

/-- The flat quorum set `{threshold=3, validators=[v0,v1,v2,v3]}` of the
`vblocking and quorum` test (nodes are modelled as `0..3`). -/
def qSet4 : SCPQuorumSet := .mk 3 [0, 1, 2, 3] .nil

/-- Counting a predicate and its pointwise boolean complement over a
list covers the whole list. -/
theorem countP_compl (l : List NodeID) (f g : NodeID → Bool)
    (h : ∀ v ∈ l, f v = !g v) :
    l.countP f + l.countP g = l.length := by
  induction l with
  | nil => simp
  | cons a l ih =>
    have ha := h a (by simp)
    have hrest : ∀ v ∈ l, f v = !g v := fun v hv => h v (List.mem_cons_of_mem a hv)
    have hl := ih hrest
    by_cases hg : g a = true
    · have hf : f a = false := by rw [ha, hg, Bool.not_true]
      simp [List.countP_cons, hg, hf]
      omega
    · simp only [Bool.not_eq_true] at hg
      have hf : f a = true := by rw [ha, hg, Bool.not_false]
      simp [List.countP_cons, hg, hf]
      omega

mutual
/-- Pointwise duality: if `T` is (on the leaves of `q`) the complement
of `S`, then `q` fails to be satisfied by `T` exactly when `S` is
v-blocking for `q`. -/
theorem dual_slice_vblocking (q : SCPQuorumSet) (S T : List NodeID)
    (h : ∀ v ∈ qLeaves q, (decide (v ∈ T) : Bool) = !decide (v ∈ S)) :
    (isQuorumSlice q T = false ↔ isVBlocking q S = true) := by
  match q with
  | .mk t vs inner =>
    have hvs : ∀ v ∈ vs, (decide (v ∈ T) : Bool) = !decide (v ∈ S) := by
      intro v hv
      refine h v ?_
      simp only [qLeaves, List.mem_append]
      exact Or.inl hv
    have hinner : ∀ v ∈ qlistLeaves inner, (decide (v ∈ T) : Bool) = !decide (v ∈ S) := by
      intro v hv
      refine h v ?_
      simp only [qLeaves, List.mem_append]
      exact Or.inr hv
    have hcount := countP_compl vs (fun v => decide (v ∈ T)) (fun v => decide (v ∈ S)) hvs
    have hlist := dual_count inner S T hinner
    simp only [isQuorumSlice, isVBlocking]
    by_cases ht : t = 0
    · subst ht
      simp
    · have ht' : (t == 0) = false := by simp [ht]
      simp only [ht', Bool.false_eq_true, if_false, decide_eq_false_iff_not,
        decide_eq_true_eq, not_le]
      omega

/-- Count duality for inner-set lists: the slice-satisfied count against
the complement plus the blocked count against `S` is the length. -/
theorem dual_count (l : SCPQuorumSetList) (S T : List NodeID)
    (h : ∀ v ∈ qlistLeaves l, (decide (v ∈ T) : Bool) = !decide (v ∈ S)) :
    sliceSatCount l T + vbSatCount l S = qlistLength l := by
  match l with
  | .nil => simp [sliceSatCount, vbSatCount, qlistLength]
  | .cons q rest =>
    have hq : ∀ v ∈ qLeaves q, (decide (v ∈ T) : Bool) = !decide (v ∈ S) := by
      intro v hv
      refine h v ?_
      simp only [qlistLeaves, List.mem_append]
      exact Or.inl hv
    have hrest : ∀ v ∈ qlistLeaves rest, (decide (v ∈ T) : Bool) = !decide (v ∈ S) := by
      intro v hv
      refine h v ?_
      simp only [qlistLeaves, List.mem_append]
      exact Or.inr hv
    have hdual := dual_slice_vblocking q S T hq
    have hih := dual_count rest S T hrest
    simp only [sliceSatCount, vbSatCount, qlistLength]
    by_cases hs : isQuorumSlice q T = true
    · have hb : isVBlocking q S = false := by
        by_contra hbb
        simp only [Bool.not_eq_false] at hbb
        have := hdual.mpr hbb
        rw [this] at hs
        exact Bool.false_ne_true hs
      simp only [hs, hb, if_true, Bool.false_eq_true, if_false]
      omega
    · simp only [Bool.not_eq_true] at hs
      have hb : isVBlocking q S = true := hdual.mp hs
      simp only [hs, hb, if_true, Bool.false_eq_true, if_false]
      omega
end

/-- Membership in `complementOf q S` is the boolean complement of
membership in `S`, for leaves of `q`. -/
theorem complementOf_contains (q : SCPQuorumSet) (S : List NodeID) :
    ∀ v ∈ qLeaves q, (decide (v ∈ complementOf q S) : Bool) = !decide (v ∈ S) := by
  intro v hv
  by_cases hs : v ∈ S
  · simp [complementOf, List.mem_filter, hs]
  · simp [complementOf, List.mem_filter, hs, hv]

/-- C5: for every quorum set `Q` and every node set `S`,
`isQuorumSlice(Q, complement(S)) = false` iff `isVBlocking(Q, S) = true`
(the complement taken on the validator leaves). -/
theorem quorum_calculus_dual (q : SCPQuorumSet) (S : List NodeID) :
    (isQuorumSlice q (complementOf q S) = false ↔ isVBlocking q S = true) :=
  dual_slice_vblocking q S (complementOf q S) (complementOf_contains q S)

/-- C6: concrete quorum calculus on `{threshold=3, validators=[v0..v3]}`:
`isVBlocking([v0]) = false`, `isVBlocking([v0,v2]) = true`, and
`isQuorumSlice([v0,v2,v3]) = true`. -/
theorem quorum_calculus_core4 :
    isVBlocking qSet4 [0] = false ∧
    isVBlocking qSet4 [0, 2] = true ∧
    isQuorumSlice qSet4 [0, 2, 3] = true := by
  refine ⟨by decide, by decide, by decide⟩

/-! ## Statements, envelopes and the statement map -/

/-- `SCPStatement` pledges: the four statement kinds of the wire format.
Quorum-set hashes are represented by the quorum sets they digest
(hashing is modelled as injective), and `nodeID`/`slotIndex` live on the
envelope (the model is per-slot). -/
inductive SCPStatement : Type where
  | prepare (quorumSetHash : SCPQuorumSet) (ballot : SCPBallot)
      (prepared preparedPrime : Option SCPBallot) (nC nP : Nat)
  | confirm (quorumSetHash : SCPQuorumSet) (nPrepared : Nat)
      (commit : SCPBallot) (nP : Nat)
  | externalize (commitQuorumSetHash : SCPQuorumSet) (commit : SCPBallot) (nP : Nat)
  | nominate (quorumSetHash : SCPQuorumSet) (votes accepted : List Value)

/-- A signed envelope: the signature is omitted (the tests always sign
correctly) and the slot index is implicit (the model is per-slot). -/
structure SCPEnvelope where
  nodeID : NodeID
  statement : SCPStatement

/-- Boolean equality on optional ballots. -/
def optBallotBeq : Option SCPBallot → Option SCPBallot → Bool
  | none, none => true
  | some a, some b => a == b
  | none, some _ => false
  | some _, none => false

/-- Boolean equality on statements (used by the emission discipline:
a node emits only when its current statement changed). -/
def stmtBeq : SCPStatement → SCPStatement → Bool
  | .prepare q1 b1 p1 pp1 c1 h1, .prepare q2 b2 p2 pp2 c2 h2 =>
      qsetBeq q1 q2 && b1 == b2 && optBallotBeq p1 p2 && optBallotBeq pp1 pp2 &&
        c1 == c2 && h1 == h2
  | .confirm q1 n1 c1 h1, .confirm q2 n2 c2 h2 =>
      qsetBeq q1 q2 && n1 == n2 && c1 == c2 && h1 == h2
  | .externalize q1 c1 h1, .externalize q2 c2 h2 =>
      qsetBeq q1 q2 && c1 == c2 && h1 == h2
  | .nominate q1 v1 a1, .nominate q2 v2 a2 =>
      qsetBeq q1 q2 && v1 == v2 && a1 == a2
  | _, _ => false

/-- Is the statement a NOMINATE pledge? -/
def isNominateSt : SCPStatement → Bool
  | .nominate _ _ _ => true
  | _ => false

/-- Latest-statement maps (`NodeID → Statement`, last writer wins per
node), as association lists. -/
def setStatement (m : List (NodeID × SCPStatement)) (n : NodeID)
    (st : SCPStatement) : List (NodeID × SCPStatement) :=
  match m with
  | [] => [(n, st)]
  | (k, s0) :: rest =>
    if k == n then (n, st) :: rest else (k, s0) :: setStatement rest n st

/-- Lookup in a latest-statement map. -/
def lookupStatement (m : List (NodeID × SCPStatement)) (n : NodeID) :
    Option SCPStatement :=
  match m with
  | [] => none
  | (k, s0) :: rest => if k == n then some s0 else lookupStatement rest n

/-- The nodes of the map whose statement passes the filter (the set `V`
of the spec's quorum tests). -/
def nodesWhere (m : List (NodeID × SCPStatement))
    (f : NodeID → SCPStatement → Bool) : List NodeID :=
  (m.filter (fun p => f p.1 p.2)).map (fun p => p.1)

/-- Modelled from the spec: the quorum set governing a node's statement
in transitive quorum computations.  For an EXTERNALIZE statement the
sender is treated as self-authoritative, i.e. judged against its
singleton quorum set (`LocalNode.h`: "alternative qset used during
externalize {{mNodeID}}"); all other statements carry their quorum-set
hash. -/
def qsetOfStatement (n : NodeID) : SCPStatement → SCPQuorumSet
  | .prepare q _ _ _ _ _ => q
  | .confirm q _ _ _ => q
  | .externalize _ _ _ => buildSingletonQSet n
  | .nominate q _ _ => q

/-- One round of the spec's fixpoint shrink for `isQuorum`: keep the
nodes whose own quorum set has a slice inside the current set; stop at
a fixpoint (a bounded amount of fuel suffices since the set shrinks). -/
def shrinkQuorum (qOf : NodeID → Option SCPQuorumSet) :
    Nat → List NodeID → List NodeID
  | 0, v => v
  | fuel + 1, v =>
    let v2 := v.filter (fun n =>
      match qOf n with
      | some q => isQuorumSlice q v
      | none => false)
    if v2.length == v.length then v2 else shrinkQuorum qOf fuel v2

/-- Modelled from the spec: `LocalNode::isQuorum` (body not in the
source tree).  The nodes of the map passing `filter` are shrunk to the
maximal fixpoint in which every node's own claimed quorum set is
slice-satisfied, and the result is whether the local quorum set is
slice-satisfied by that fixpoint.  Calibrated against `SCPTests.cpp`:
the local node participates only through its own recorded statement (a
quorum need not contain self — cf. the `prepare (1,y), receives accept
commit messages (1,x)` scenario, where the four peers alone form the
quorum). -/
def isQuorumFiltered (localQ : SCPQuorumSet)
    (m : List (NodeID × SCPStatement))
    (filter : NodeID → SCPStatement → Bool) : Bool :=
  let pNodes := nodesWhere m filter
  let fix := shrinkQuorum
    (fun n => (lookupStatement m n).map (fun st => qsetOfStatement n st))
    pNodes.length pNodes
  isQuorumSlice localQ fix

/-- The nodes of the map passing the filter, tested for v-blocking
against the local quorum set (`LocalNode::isVBlocking`, map variant). -/
def isVBlockingFiltered (localQ : SCPQuorumSet)
    (m : List (NodeID × SCPStatement))
    (filter : NodeID → SCPStatement → Bool) : Bool :=
  isVBlocking localQ (nodesWhere m filter)

/-! ## Ballot protocol -/

/-- The three phases of the ballot protocol. -/
inductive SCPPhase : Type where
  | prepare
  | confirm
  | externalize
deriving DecidableEq, Repr

/-- Per-slot ballot state: phase, current ballot `b`, accepted-prepared
`p` and `p'` (`pPrime`), commit `c`, confirmed-prepared `P` (`bigP`),
the latest ballot statement per peer (self included), the counters for
which `ballotDidHearFromQuorum` already fired, and the last emitted
statement (the emission discipline emits only on change). -/
structure BallotState where
  phase : SCPPhase
  b : Option SCPBallot
  p : Option SCPBallot
  pPrime : Option SCPBallot
  c : Option SCPBallot
  bigP : Option SCPBallot
  latest : List (NodeID × SCPStatement)
  heardCounters : List Nat
  lastEmitted : Option SCPStatement

/-- The pristine ballot state of a fresh slot. -/
def initBallotState : BallotState :=
  { phase := .prepare, b := none, p := none, pPrime := none, c := none,
    bigP := none, latest := [], heardCounters := [], lastEmitted := none }

/-- `none < q` and otherwise the strict lexicographic order (the null
ballot `(0,_)` is below every real ballot). -/
def optLtBallot : Option SCPBallot → SCPBallot → Bool
  | none, _ => true
  | some a, q => ballotLt a q

/-- Monotone update of the current ballot: adopt `q` only when it is
strictly above the current one (the bump rules are monotonic on `b`). -/
def bumpIfHigher (b : Option SCPBallot) (q : SCPBallot) : Option SCPBallot :=
  if optLtBallot b q then some q else b

/-- Counter of an optional ballot (`0` for the null ballot, as on the
wire: `nC`/`nP` are `0` when `c`/`P` are unset). -/
def optCounter : Option SCPBallot → Nat
  | none => 0
  | some a => a.counter

/-- Value of an optional ballot with a default. -/
def optValue (dflt : Value) : Option SCPBallot → Value
  | none => dflt
  | some a => a.value

/-- Modelled from the spec: the statement reflecting the current ballot
state, "the emitted statement always reflects current
`(b, p, p', c.counter as nC, P.counter as nP)`".  In the CONFIRM phase
the statement carries `(nPrepared = p.counter, commit = c, nP =
P.counter)`; in the EXTERNALIZE phase `(commit = c, nP = P.counter)`.
The EXTERNALIZE statement's `commitQuorumSetHash` is the hash of the
local declared quorum set, as fixed by `verifyExternalize` in the
`SCPTests.cpp` scenarios (which compare it to `qSetHash`). -/
def currentStatement (localQ : SCPQuorumSet)
    (bs : BallotState) : Option SCPStatement :=
  match bs.b with
  | none => none
  | some bb =>
    match bs.phase with
    | .prepare =>
      some (.prepare localQ bb bs.p bs.pPrime (optCounter bs.c) (optCounter bs.bigP))
    | .confirm =>
      some (.confirm localQ (optCounter bs.p)
        ⟨optCounter bs.c, optValue bb.value bs.c⟩ (optCounter bs.bigP))
    | .externalize =>
      some (.externalize localQ
        ⟨optCounter bs.c, optValue bb.value bs.c⟩ (optCounter bs.bigP))

/-- Does the statement assert that its sender *accepts* ballot `q` as
prepared?  PREPARE: some of `prepared`/`preparedPrime` dominates `q`
with the same value; CONFIRM: `q.counter ≤ nPrepared` with the commit
value; EXTERNALIZE: the commit value (any counter). -/
def stAcceptsPrepared (q : SCPBallot) : SCPStatement → Bool
  | .prepare _ _ p pp _ _ =>
    (match p with
     | some r => ballotLe q r && ballotCompatible q r
     | none => false) ||
    (match pp with
     | some r => ballotLe q r && ballotCompatible q r
     | none => false)
  | .confirm _ nPrep c _ => Nat.ble q.counter nPrep && ballotCompatible q c
  | .externalize _ c _ => ballotCompatible q c
  | .nominate _ _ _ => false

/-- Does the statement assert that its sender *votes or accepts* `q`
prepared (its ballot dominates `q` with the same value, or it accepts
`q` prepared)? -/
def stVotesOrAcceptsPrepared (q : SCPBallot) (st : SCPStatement) : Bool :=
  (match st with
   | .prepare _ bb _ _ _ _ => ballotLe q bb && ballotCompatible q bb
   | _ => false) || stAcceptsPrepared q st

/-- Does the statement assert that its sender *accepts* committing every
ballot `(n, v)` with `lo ≤ n ≤ hi` (CONFIRM/EXTERNALIZE statements
only)? -/
def stAcceptsCommitRange (v : Value) (lo hi : Nat) : SCPStatement → Bool
  | .confirm _ _ c nP =>
    (c.value == v) && Nat.ble c.counter lo && Nat.ble hi nP
  | .externalize _ c _ => (c.value == v) && Nat.ble c.counter lo
  | .prepare _ _ _ _ _ _ => false
  | .nominate _ _ _ => false

/-- Does the statement assert that its sender *votes or accepts*
committing every ballot `(n, v)` with `lo ≤ n ≤ hi` (a PREPARE with
`(nC, nP) ≠ (0, 0)` votes to commit `[nC, nP]` on its ballot's
value)? -/
def stVotesOrAcceptsCommitRange (v : Value) (lo hi : Nat)
    (st : SCPStatement) : Bool :=
  (match st with
   | .prepare _ bb _ _ nC nP =>
     (bb.value == v) && Nat.ble 1 nC && Nat.ble nC lo && Nat.ble hi nP
   | _ => false) || stAcceptsCommitRange v lo hi st

/-- Is the statement at ballot counter at least `k` (the
heard-from-quorum filter; CONFIRM/EXTERNALIZE statements are past their
commit counter)? -/
def stCounterGe (k : Nat) : SCPStatement → Bool
  | .prepare _ bb _ _ _ _ => Nat.ble k bb.counter
  | .confirm _ _ c _ => Nat.ble k c.counter
  | .externalize _ _ _ => true
  | .nominate _ _ _ => false

/-- Ballots mentioned by a statement as prepared candidates: the
statement's ballot, `prepared` and `preparedPrime` for PREPARE;
`(nPrepared, commit.value)` for CONFIRM; `(commit.counter,
commit.value)` for EXTERNALIZE. -/
def stPreparedCandidates : SCPStatement → List SCPBallot
  | .prepare _ bb p pp _ _ =>
    [bb] ++
      (match p with | some r => [r] | none => []) ++
      (match pp with | some r => [r] | none => [])
  | .confirm _ nPrep c _ => [⟨nPrep, c.value⟩]
  | .externalize _ c _ => [⟨c.counter, c.value⟩]
  | .nominate _ _ _ => []

/-- Insert a ballot into a strictly descending candidate list
(duplicates dropped): per the spec's tie-break, higher candidates are
attempted first. -/
def insertBallotDesc (q : SCPBallot) : List SCPBallot → List SCPBallot
  | [] => [q]
  | r :: rest =>
    if q == r then r :: rest
    else if ballotLt r q then q :: r :: rest
    else r :: insertBallotDesc q rest

/-- All prepared candidates of a statement map, sorted descending. -/
def candidateBallots (m : List (NodeID × SCPStatement)) : List SCPBallot :=
  m.foldr (fun p acc => (stPreparedCandidates p.2).foldr insertBallotDesc acc) []

/-- Commit-interval candidates `(value, lo, hi)` asserted by a
statement map. -/
def commitCandidates (m : List (NodeID × SCPStatement)) :
    List (Value × Nat × Nat) :=
  m.foldr (fun p acc =>
    (match p.2 with
     | .prepare _ bb _ _ nC nP => if nC == 0 then [] else [(bb.value, nC, nP)]
     | .confirm _ _ c nP => [(c.value, c.counter, nP)]
     | .externalize _ c _ => [(c.value, c.counter, c.counter)]
     | .nominate _ _ _ => []) ++ acc) []

/-- A prepared candidate is admissible when it is at or above the
current ballot (a statement strictly below the node's current ballot is
not adopted — calibrated against the `prepare (1,y), receives accept
commit messages (1,x)` scenario, where the lower prepared `(1,x)` is
not adopted) and, in the CONFIRM phase, compatible with the frozen
commit value (spec: "After `phase = CONFIRM`, `c.value` is frozen"). -/
def prepCandidateOk (bs : BallotState) (q : SCPBallot) : Bool :=
  (match bs.b with
   | none => true
   | some bb => ballotLe bb q) &&
  (match bs.phase, bs.c with
   | .confirm, some cc => ballotCompatible q cc
   | _, _ => true)

/-- Modelled from the spec: record ballot `q` as accepted prepared,
maintaining `p' < p` with differing values, and raise the current
ballot to `q` (the scenarios fix that accepting a higher prepared
ballot also moves `b` to it: `PREPARE(b=(1,y), prepared=(1,y))` after
two v-blocking witnesses of `(1,y)`); `applyPreparedSome` handles the
case of an already-set `p`, maintaining `p' < p` with differing
values. -/
def applyPreparedSome (q p0 : SCPBallot) (bs : BallotState) : BallotState :=
  if ballotLt p0 q then
    { bs with p := some q,
              pPrime := if p0.value == q.value then bs.pPrime else some p0,
              b := bumpIfHigher bs.b q }
  else if ballotLt q p0 && !ballotCompatible q p0 && optLtBallot bs.pPrime q then
    { bs with pPrime := some q }
  else bs

/-- See `applyPreparedSome`; on a fresh `p` the ballot is adopted
directly. -/
def applyPrepared (q : SCPBallot) (bs : BallotState) : BallotState :=
  match bs.p with
  | none => { bs with p := some q, b := bumpIfHigher bs.b q }
  | some p0 => applyPreparedSome q p0 bs

/-- Modelled from the spec (§4.4 step 1, "accept prepared"): for each
candidate ballot (highest first), accept it as prepared when a
v-blocking set of peers accepts it prepared or a quorum votes-or-accepts
it prepared. -/
def attemptPrepared (localQ : SCPQuorumSet) (bs : BallotState) : BallotState :=
  (candidateBallots bs.latest).foldl
    (fun st q =>
      if prepCandidateOk st q &&
         (isVBlockingFiltered localQ st.latest (fun _ s => stAcceptsPrepared q s) ||
          isQuorumFiltered localQ st.latest (fun _ s => stVotesOrAcceptsPrepared q s))
      then applyPrepared q st
      else st) bs

/-- Start voting commit from the current ballot when `c` is unset
(`c = (b.counter, b.value)`). -/
def setCommitFromBallot (st : BallotState) : BallotState :=
  match st.c, st.b with
  | none, some bb => { st with c := some bb }
  | _, _ => st

/-- See `attemptConfirmPrepared`: raise `P` and `b` to the quorum
confirmed-prepared ballot, then start voting commit if `c` is unset. -/
def applyConfirmPrepared (q : SCPBallot) (st : BallotState) : BallotState :=
  setCommitFromBallot { st with bigP := some q, b := bumpIfHigher st.b q }

/-- Modelled from the spec (§4.4 step 2, "confirm prepared"): when a
quorum accepts a candidate prepared, raise `P` (and `b`) to it, and
when `c` is unset start voting commit from the current ballot. -/
def attemptConfirmPrepared (localQ : SCPQuorumSet) (bs : BallotState) :
    BallotState :=
  (candidateBallots bs.latest).foldl
    (fun st q =>
      if st.phase == SCPPhase.prepare && prepCandidateOk st q &&
         optLtBallot st.bigP q &&
         isQuorumFiltered localQ st.latest (fun _ s => stAcceptsPrepared q s)
      then applyConfirmPrepared q st
      else st) bs

/-- Modelled from the spec (§4.4 step 3, "accept commit"): transition
PREPARE → CONFIRM on the interval `[lo, hi]` with value `v`: set
`c = (lo, v)`, `P = (hi, v)`, raise `p` to `(hi, v)` and `b.counter`
to at least `hi` with value `v`. -/
def applyAcceptCommit (v : Value) (lo hi : Nat) (bs : BallotState) :
    BallotState :=
  { bs with phase := .confirm,
            c := some ⟨lo, v⟩,
            bigP := some ⟨hi, v⟩,
            p := (match bs.p with
                  | none => some ⟨hi, v⟩
                  | some p0 =>
                    if ballotLt p0 ⟨hi, v⟩ then some ⟨hi, v⟩ else some p0),
            b := some ⟨max (optCounter bs.b) hi, v⟩ }

/-- One commit-interval candidate of step 3, tried against the
v-blocking and quorum criteria. -/
def acceptCommitStep (localQ : SCPQuorumSet) (st : BallotState)
    (cand : Value × Nat × Nat) : BallotState :=
  if st.phase == SCPPhase.prepare && Nat.ble 1 cand.2.1 &&
     Nat.ble cand.2.1 cand.2.2 &&
     (isVBlockingFiltered localQ st.latest
        (fun _ s => stAcceptsCommitRange cand.1 cand.2.1 cand.2.2 s) ||
      isQuorumFiltered localQ st.latest
        (fun _ s => stVotesOrAcceptsCommitRange cand.1 cand.2.1 cand.2.2 s))
  then applyAcceptCommit cand.1 cand.2.1 cand.2.2 st
  else st

/-- Modelled from the spec (§4.4 step 3): accept committing `[lo, hi]`
with value `v` when a v-blocking set of peers accepts committing the
range or a quorum votes-or-accepts committing it. -/
def attemptAcceptCommit (localQ : SCPQuorumSet) (bs : BallotState) :
    BallotState :=
  if bs.phase == SCPPhase.prepare then
    (commitCandidates bs.latest).foldl (acceptCommitStep localQ) bs
  else bs

/-- One commit-interval candidate of step 4, restricted to the frozen
commit value, tried against the quorum criterion. -/
def confirmCommitStep (localQ : SCPQuorumSet) (cv : Value)
    (st : BallotState) (cand : Value × Nat × Nat) : BallotState :=
  if st.phase == SCPPhase.confirm && (cand.1 == cv) &&
     Nat.ble 1 cand.2.1 && Nat.ble cand.2.1 cand.2.2 &&
     isQuorumFiltered localQ st.latest
       (fun _ s => stAcceptsCommitRange cand.1 cand.2.1 cand.2.2 s)
  then { st with phase := .externalize, c := some ⟨cand.2.1, cand.1⟩,
                 bigP := some ⟨cand.2.2, cand.1⟩ }
  else st

/-- Modelled from the spec (§4.4 step 4, "confirm commit"): transition
CONFIRM → EXTERNALIZE when a quorum accepts committing an interval with
the frozen commit value. -/
def attemptConfirmCommit (localQ : SCPQuorumSet) (bs : BallotState) :
    BallotState :=
  if bs.phase == SCPPhase.confirm then
    match bs.c with
    | none => bs
    | some cc =>
      (commitCandidates bs.latest).foldl (confirmCommitStep localQ cc.value) bs
  else bs

/-- One pass of the spec's transition attempts, in order. -/
def advanceOnce (localQ : SCPQuorumSet) (bs : BallotState) : BallotState :=
  attemptConfirmCommit localQ
    (attemptAcceptCommit localQ
      (attemptConfirmPrepared localQ
        (attemptPrepared localQ bs)))

/-- Record the node's own current statement in its latest-statement map
(the node processes its own statements like a peer's; this is what lets
one inbound message cascade through several transitions). -/
def recordSelf (localID : NodeID) (localQ : SCPQuorumSet) (bs : BallotState) :
    BallotState :=
  match currentStatement localQ bs with
  | some st => { bs with latest := setStatement bs.latest localID st }
  | none => bs

/-- The transition cascade: the pass is iterated a bounded number of
times, re-recording the node's own updated statement in between, so
that transitions enabled by the node's own progress fire within the
same inbound message (cf. the test comment "this causes 2 transitions:
confirm as prepared → set P, c and b; accept commit (quorum)").  All
transitions are guarded, so extra iterations are no-ops. -/
def advanceCascade (localID : NodeID) (localQ : SCPQuorumSet) :
    Nat → BallotState → BallotState
  | 0, bs => bs
  | fuel + 1, bs =>
    advanceCascade localID localQ fuel
      (recordSelf localID localQ (advanceOnce localQ bs))

/-! ## Nomination protocol -/

/-- Per-slot nomination state (§4.3 of the spec).  `lastNomEmitted`
implements the "emitted at most once per state change" rule. -/
structure NomState where
  votes : List Value
  accepted : List Value
  candidates : List Value
  latestNominations : List (NodeID × SCPStatement)
  roundNumber : Nat
  nominationStarted : Bool
  latestComposite : Option Value
  lastNomEmitted : Option (List Value × List Value)

/-- The pristine nomination state of a fresh slot. -/
def initNomState : NomState :=
  { votes := [], accepted := [], candidates := [],
    latestNominations := [], roundNumber := 0,
    nominationStarted := false, latestComposite := none,
    lastNomEmitted := some ([], []) }

/-- Insert a value into an ascending sorted-unique list (`votes` and
`accepted` are transmitted sorted ascending, duplicates filtered). -/
def valueInsert (v : Value) : List Value → List Value
  | [] => [v]
  | w :: rest =>
    if v == w then w :: rest
    else if v < w then v :: w :: rest
    else w :: valueInsert v rest

/-- Union of a sorted-unique value list with further values. -/
def valueUnion (base : List Value) (extra : List Value) : List Value :=
  extra.foldl (fun acc v => valueInsert v acc) base

/-- Votes carried by a NOMINATE statement. -/
def nomVotesOf : SCPStatement → List Value
  | .nominate _ vs _ => vs
  | _ => []

/-- Accepted values carried by a NOMINATE statement. -/
def nomAcceptedOf : SCPStatement → List Value
  | .nominate _ _ acc => acc
  | _ => []

/-- All values appearing in votes or accepted of any stored NOMINATE. -/
def allNominationValues (m : List (NodeID × SCPStatement)) : List Value :=
  m.foldr (fun p acc => valueUnion acc (nomVotesOf p.2 ++ nomAcceptedOf p.2)) []

/-- `UINT64_MAX`, the weight normalization constant. -/
def UINT64MAX : Nat := 18446744073709551615

mutual
/-- Modelled from the spec: `LocalNode::getNodeWeight` (body not in the
source tree).  A direct validator weighs `UINT64_MAX * threshold /
size`; a node inside an inner set weighs the inner weight scaled by
that factor; zero if not contained. -/
def getNodeWeight (n : NodeID) : SCPQuorumSet → Nat
  | .mk t vs inner =>
    let sz := vs.length + qlistLength inner
    if vs.contains n then UINT64MAX * t / sz
    else weightInInner n t sz inner

/-- Weight of a node inside a list of inner sets (first inner set
containing the node wins). -/
def weightInInner (n t sz : Nat) : SCPQuorumSetList → Nat
  | .nil => 0
  | .cons q rest =>
    let w := getNodeWeight n q
    if 0 < w then UINT64MAX * t / sz * w / UINT64MAX
    else weightInInner n t sz rest
end

/-- The test double of the source's `TestSCP` harness: the local node's
identity and declared quorum set, the overridden `computeHash`
(`mPriorityLookup`; the neighborhood hash is `0`, so every node with a
positive weight is in the neighborhood), and `combineCandidates`
(`mCompositeValue`, modelled as a function of the candidate set). -/
structure TestSCP where
  localID : NodeID
  localQSet : SCPQuorumSet
  priorityLookup : NodeID → Nat
  compositeValue : List Value → Value

/-- Modelled from the spec: the round's top node — among the
neighborhood (nodes of the local quorum set with
`H_neighbor < getNodeWeight`, and `H_neighbor = 0` under the test's
`computeHash` override), the node maximizing the priority hash.  The
test's priority lookup does not depend on the round number. -/
def roundTopNode (d : TestSCP) : NodeID :=
  let cands := (qLeaves d.localQSet).filter
    (fun n => decide (0 < getNodeWeight n d.localQSet))
  match cands with
  | [] => d.localID
  | c :: rest =>
    rest.foldl (fun best n =>
      if d.priorityLookup best < d.priorityLookup n then n else best) c

/-- Modelled from the spec (§4.3, processing an inbound NOMINATE): for
every value seen in the stored nominations, promote it to `accepted`
when a v-blocking set of peers has it accepted or a quorum has it in
votes ∪ accepted (the test's `validateValue` always passes), adding it
to `votes` as well; promote an accepted value to `candidates` when a
quorum has it accepted. -/
def nomPromotionPass (d : TestSCP) (nom : NomState) : NomState :=
  (allNominationValues nom.latestNominations).foldl
    (fun ns w =>
      let ns1 :=
        if ns.accepted.contains w then ns
        else if isVBlockingFiltered d.localQSet ns.latestNominations
                  (fun _ st => (nomAcceptedOf st).contains w) ||
                isQuorumFiltered d.localQSet ns.latestNominations
                  (fun _ st => (nomVotesOf st).contains w ||
                               (nomAcceptedOf st).contains w)
        then { ns with votes := valueInsert w ns.votes,
                       accepted := valueInsert w ns.accepted }
        else ns
      if ns1.accepted.contains w && !ns1.candidates.contains w &&
         isQuorumFiltered d.localQSet ns1.latestNominations
           (fun _ st => (nomAcceptedOf st).contains w)
      then { ns1 with candidates := valueInsert w ns1.candidates }
      else ns1)
    nom

/-! ## The slot -/

/-- Per-slot state as observed by the test harness: the two
sub-protocol states plus the harness logs `mEnvs` (emissions),
`mExternalizedValues` (for slot 0) and `mHeardFromQuorums[0]`. -/
structure SlotState where
  bal : BallotState
  nom : NomState
  emissions : List SCPEnvelope
  externalized : List Value
  heard : List SCPBallot

/-- A fresh slot. -/
def initSlotState : SlotState :=
  { bal := initBallotState, nom := initNomState,
    emissions := [], externalized := [], heard := [] }

/-- Modelled from the spec (§4.4 step 5): if a quorum reports a ballot
counter at least the current one and the current counter has not fired
yet, invoke `ballotDidHearFromQuorum` (recorded per counter). -/
def checkHeard (d : TestSCP) (s : SlotState) : SlotState :=
  match s.bal.b with
  | none => s
  | some bb =>
    if s.bal.heardCounters.contains bb.counter then s
    else if isQuorumFiltered d.localQSet s.bal.latest
              (fun _ st => stCounterGe bb.counter st) then
      { s with
        bal := { s.bal with heardCounters := s.bal.heardCounters ++ [bb.counter] },
        heard := s.heard ++ [bb] }
    else s

/-- Emit the node's current ballot statement when it differs from the
last emitted one (spec: redundant transitions are no-ops; receiving a
dominated envelope twice produces no emission). -/
def emitIfChanged (d : TestSCP) (s : SlotState) : SlotState :=
  match currentStatement d.localQSet s.bal with
  | none => s
  | some st =>
    if (match s.bal.lastEmitted with
        | some e => stmtBeq e st
        | none => false)
    then s
    else
      { s with
        bal := { s.bal with lastEmitted := some st,
                            latest := setStatement s.bal.latest d.localID st },
        emissions := s.emissions ++ [⟨d.localID, st⟩] }

/-- Record `valueExternalized(slot, c.value)` when the phase just
reached EXTERNALIZE (invoked exactly once: the phase never leaves
EXTERNALIZE again). -/
def recordExternalized (oldPhase : SCPPhase) (s : SlotState) : SlotState :=
  if oldPhase ≠ SCPPhase.externalize ∧ s.bal.phase = SCPPhase.externalize then
    { s with externalized := s.externalized ++ [optValue 0 s.bal.c] }
  else s

/-- Run the transition cascade, record `valueExternalized` when the
phase reached EXTERNALIZE, fire the heard-from-quorum hook, and emit
the updated statement if it changed. -/
def advanceAndEmit (d : TestSCP) (s : SlotState) : SlotState :=
  emitIfChanged d (checkHeard d (recordExternalized s.bal.phase
    { s with bal := advanceCascade d.localID d.localQSet 6 s.bal }))

/-- The value a bump adopts: `P.value` when `P` is set, else `c.value`
when `c` is set, else the caller-supplied value. -/
def pickBumpValue (bs : BallotState) (v : Value) : Value :=
  match bs.bigP with
  | some pb => pb.value
  | none =>
    match bs.c with
    | some cc => cc.value
    | none => v

/-- Modelled from the spec: `bumpState(slot, value, force)`.  Rejected
once EXTERNALIZE; seeds `b = (1, v)` on a pristine slot; with `force`,
advances the counter by one keeping the locked value (`P`/`c`) if any
(cf. the `timeout when P is set` scenario: bump on `y` yields
`b = (2, x)`).  `bumpWithBallot` is the shared bump-and-cascade core. -/
def bumpWithBallot (d : TestSCP) (nb : SCPBallot) (s : SlotState) : SlotState :=
  advanceAndEmit d { s with bal := { s.bal with b := some nb } }

/-- See `bumpState`; the seeded/forced bump installs the new ballot and
runs the cascade. -/
def bumpState (d : TestSCP) (v : Value) (force : Bool) (s : SlotState) :
    SlotState × Bool :=
  if s.bal.phase == SCPPhase.externalize then (s, false)
  else
    match s.bal.b with
    | none => (bumpWithBallot d ⟨1, pickBumpValue s.bal v⟩ s, true)
    | some bb =>
      if force then
        (bumpWithBallot d ⟨bb.counter + 1, pickBumpValue s.bal v⟩ s, true)
      else (s, false)

/-- Process an inbound PREPARE/CONFIRM/EXTERNALIZE statement: record it
and run the cascade (the caller already dropped it if the slot is
externalized). -/
def processBallotEnvelope (d : TestSCP) (n : NodeID) (st : SCPStatement)
    (s : SlotState) : SlotState :=
  advanceAndEmit d
    { s with bal := { s.bal with latest := setStatement s.bal.latest n st } }

/-- Emit a NOMINATE statement reflecting the current votes/accepted
(recording it as the node's own latest nomination). -/
def emitNominationAlways (d : TestSCP) (s : SlotState) : SlotState :=
  let st : SCPStatement := .nominate d.localQSet s.nom.votes s.nom.accepted
  { s with
    nom := { s.nom with
      lastNomEmitted := some (s.nom.votes, s.nom.accepted),
      latestNominations := setStatement s.nom.latestNominations d.localID st },
    emissions := s.emissions ++ [⟨d.localID, st⟩] }

/-- Did the pair (votes, accepted) change since the last emitted
NOMINATE statement? -/
def nomStateChanged (s : SlotState) : Bool :=
  match s.nom.lastNomEmitted with
  | some last => !(last.1 == s.nom.votes && last.2 == s.nom.accepted)
  | none => true

/-- Emit a NOMINATE statement only when votes/accepted changed since the
last emission. -/
def emitNominationIfChanged (d : TestSCP) (s : SlotState) : SlotState :=
  if nomStateChanged s then emitNominationAlways d s else s

/-- Modelled from the spec: when the candidate set changed, invoke
`combineCandidates` for the composite; on the first (empty → non-empty)
promotion, seed the ballot protocol with `(1, composite)` via
`bumpState`; later changes only refresh `latestComposite` (cf. the
"update latest to (z=x+y)" scenario, which requires no new ballot). -/
def handleNewCandidates (d : TestSCP) (oldCandidates : List Value)
    (s : SlotState) : SlotState :=
  if s.nom.candidates == oldCandidates then s
  else if oldCandidates.isEmpty then
    (bumpState d (d.compositeValue s.nom.candidates) false
      { s with nom := { s.nom with
          latestComposite := some (d.compositeValue s.nom.candidates) } }).1
  else
    { s with nom := { s.nom with
        latestComposite := some (d.compositeValue s.nom.candidates) } }

/-- Record a peer's NOMINATE statement. -/
def nomRecordStatement (n : NodeID) (st : SCPStatement) (s : SlotState) :
    SlotState :=
  { s with nom := { s.nom with
      latestNominations := setStatement s.nom.latestNominations n st } }

/-- Adopt the round top node's values: "the local node votes to
nominate whatever value(s) the top node has voted for" (only when the
top node is a peer; a waiting node adopts them on arrival). -/
def nomAdoptFromTop (d : TestSCP) (n : NodeID) (st : SCPStatement)
    (s : SlotState) : SlotState :=
  if n == roundTopNode d && !(roundTopNode d == d.localID) then
    { s with nom := { s.nom with
        votes := valueUnion s.nom.votes (nomVotesOf st ++ nomAcceptedOf st) } }
  else s

/-- Run the promotion pass, emit the NOMINATE on change, and handle any
new candidates. -/
def nomPromoteAndEmit (d : TestSCP) (s : SlotState) : SlotState :=
  handleNewCandidates d s.nom.candidates
    (emitNominationIfChanged d { s with nom := nomPromotionPass d s.nom })

/-- Modelled from the spec: processing an inbound NOMINATE — record it;
if nomination is running, adopt the top node's values when the sender
is the round's top node, run the promotion pass, emit on change and
handle new candidates. -/
def processNominate (d : TestSCP) (n : NodeID) (st : SCPStatement)
    (s : SlotState) : SlotState :=
  if !(nomRecordStatement n st s).nom.nominationStarted then
    nomRecordStatement n st s
  else nomPromoteAndEmit d (nomAdoptFromTop d n st (nomRecordStatement n st s))

/-- Mark nomination started and advance the round on a timed out
call. -/
def nomStartRound (timedOut : Bool) (s : SlotState) : SlotState :=
  { s with nom := { s.nom with
      nominationStarted := true,
      roundNumber := s.nom.roundNumber + (if timedOut then 1 else 0) } }

/-- The votes a `nominate` call would adopt: self-vote when self is the
round's top node, else the stored votes of the top node (unchanged when
none are stored — the node waits). -/
def nominateNewVotes (d : TestSCP) (v : Value) (s : SlotState) : List Value :=
  if roundTopNode d == d.localID then valueInsert v s.nom.votes
  else
    match lookupStatement s.nom.latestNominations (roundTopNode d) with
    | some st => valueUnion s.nom.votes (nomVotesOf st ++ nomAcceptedOf st)
    | none => s.nom.votes

/-- Install a new votes list. -/
def nomSetVotes (vs : List Value) (s : SlotState) : SlotState :=
  { s with nom := { s.nom with votes := vs } }

/-- Run the promotion pass, emit the NOMINATE unconditionally, and
handle any new candidates (the `nominate` path just changed the votes,
so the statement is new). -/
def nomPromoteAndEmitAlways (d : TestSCP) (s : SlotState) : SlotState :=
  handleNewCandidates d s.nom.candidates
    (emitNominationAlways d { s with nom := nomPromotionPass d s.nom })

/-- Modelled from the spec: `nominate(slot, value, timedOut)`.  A timed
out call advances the round.  If the round's top node is self, vote for
the given value; otherwise adopt the stored votes of the top node, or
wait (returning `false` without emitting) when none are stored.  Returns
`true` iff a NOMINATE envelope was emitted. -/
def nominate (d : TestSCP) (v : Value) (timedOut : Bool) (s : SlotState) :
    SlotState × Bool :=
  if nominateNewVotes d v (nomStartRound timedOut s) ==
      (nomStartRound timedOut s).nom.votes then
    (nomStartRound timedOut s, false)
  else
    (nomPromoteAndEmitAlways d
      (nomSetVotes (nominateNewVotes d v (nomStartRound timedOut s))
        (nomStartRound timedOut s)), true)

/-- Modelled from the spec: `Slot::receiveEnvelope` — an externalized
slot drops further envelopes; otherwise dispatch by pledge kind. -/
def receiveEnvelope (d : TestSCP) (e : SCPEnvelope) (s : SlotState) :
    SlotState :=
  if s.bal.phase == SCPPhase.externalize then s
  else
    match e.statement with
    | .nominate q vs acc => processNominate d e.nodeID (.nominate q vs acc) s
    | st => processBallotEnvelope d e.nodeID st s

/-- A host-driven event on a slot: an inbound envelope or a
`bumpState` call. -/
inductive SCPAction : Type where
  | recv (e : SCPEnvelope)
  | bump (v : Value) (force : Bool)

/-- Apply one action. -/
def applySCPAction (d : TestSCP) (s : SlotState) : SCPAction → SlotState
  | .recv e => receiveEnvelope d e s
  | .bump v force => (bumpState d v force s).1

/-- Run a sequence of delivered envelopes and `bumpState` calls on a
fresh slot. -/
def runSCP (d : TestSCP) (acts : List SCPAction) : SlotState :=
  acts.foldl (applySCPAction d) initSlotState

/-! ## The core5 scenarios of `SCPTests.cpp` -/

/-- The flat quorum set `{threshold=4, validators=[v0..v4]}` of the
`protocol core5` and `nomination tests core5` test cases. -/
def qSet5 : SCPQuorumSet := .mk 4 [0, 1, 2, 3, 4] .nil

/-- The `TestSCP` harness of the ballot scenarios: local node `v0`,
declared quorum set `qSet5`, the default priority lookup (self wins)
and `mCompositeValue` (unused by the ballot scenarios). -/
def core5SCP : TestSCP :=
  { localID := 0, localQSet := qSet5,
    priorityLookup := fun n => if n == 0 then 1000 else 1,
    compositeValue := fun _ => xValue }

/-- The ballot `(1, x)`. -/
def ballot1x : SCPBallot := ⟨1, xValue⟩

/-- Envelope builder mirroring the test's `makePrepare`. -/
def makePrepare (n : NodeID) (q : SCPQuorumSet) (ballot : SCPBallot)
    (prepared : Option SCPBallot) (nC nP : Nat)
    (preparedPrime : Option SCPBallot) : SCPEnvelope :=
  ⟨n, .prepare q ballot prepared preparedPrime nC nP⟩

/-- Envelope builder mirroring the test's `makeConfirm`. -/
def makeConfirm (n : NodeID) (q : SCPQuorumSet) (nPrepared : Nat)
    (commit : SCPBallot) (nP : Nat) : SCPEnvelope :=
  ⟨n, .confirm q nPrepared commit nP⟩

/-- Envelope builder mirroring the test's `makeExternalize`. -/
def makeExternalize (n : NodeID) (q : SCPQuorumSet) (commit : SCPBallot)
    (nP : Nat) : SCPEnvelope :=
  ⟨n, .externalize q commit nP⟩

/-- Envelope builder mirroring the test's `makeNominate`. -/
def makeNominate (n : NodeID) (q : SCPQuorumSet)
    (votes accepted : List Value) : SCPEnvelope :=
  ⟨n, .nominate q votes accepted⟩

/-- The `normal round (1,x)` scenario (spec §8 scenario 1): `v0` bumps
on `x`; plain PREPAREs arrive from `v1, v2, v3`; the prepared statement
arrives from three more peers (`v4, v3, v2`, as in
`nodesAllPledgeToCommit`); then three CONFIRMs arrive. -/
def normalRoundActions : List SCPAction :=
  [ .bump xValue true,
    .recv (makePrepare 1 qSet5 ballot1x none 0 0 none),
    .recv (makePrepare 2 qSet5 ballot1x none 0 0 none),
    .recv (makePrepare 3 qSet5 ballot1x none 0 0 none),
    .recv (makePrepare 4 qSet5 ballot1x (some ballot1x) 0 0 none),
    .recv (makePrepare 3 qSet5 ballot1x (some ballot1x) 0 0 none),
    .recv (makePrepare 2 qSet5 ballot1x (some ballot1x) 0 0 none),
    .recv (makeConfirm 1 qSet5 1 ballot1x 1),
    .recv (makeConfirm 2 qSet5 1 ballot1x 1),
    .recv (makeConfirm 3 qSet5 1 ballot1x 1) ]

/-- The emissions the normal round must produce: `PREPARE(1,x)`, then
`PREPARE(1,x, prepared=(1,x))`, then `PREPARE` with `(nC=1, nP=1)`,
then `CONFIRM`, then `EXTERNALIZE`. -/
def normalRoundEmissions : List SCPEnvelope :=
  [ makePrepare 0 qSet5 ballot1x none 0 0 none,
    makePrepare 0 qSet5 ballot1x (some ballot1x) 0 0 none,
    makePrepare 0 qSet5 ballot1x (some ballot1x) 1 1 none,
    makeConfirm 0 qSet5 1 ballot1x 1,
    makeExternalize 0 qSet5 ballot1x 1 ]

/-- The ballot `(1, y)`. -/
def ballot1y : SCPBallot := ⟨1, yValue⟩

/-- The ballot `(2, y)`. -/
def ballot2y : SCPBallot := ⟨2, yValue⟩

/-- The ballot `(3, z)`. -/
def ballot3z : SCPBallot := ⟨3, zValue⟩

/-- The `prepared x, then prepared y -> prepared prime is set properly`
scenario: `v0` bumps on `x`; v-blocking pairs `v1, v2` promote
`(1,x)`, then `(2,y)`, then `(3,z)` as prepared. -/
def preparedChainActions : List SCPAction :=
  [ .bump xValue true,
    .recv (makePrepare 1 qSet5 ballot1x (some ballot1x) 1 1 none),
    .recv (makePrepare 2 qSet5 ballot1x (some ballot1x) 1 1 none),
    .recv (makePrepare 1 qSet5 ballot2y (some ballot2y) 2 2 none),
    .recv (makePrepare 2 qSet5 ballot2y (some ballot2y) 2 2 none),
    .recv (makePrepare 1 qSet5 ballot3z (some ballot3z) 3 3 none),
    .recv (makePrepare 2 qSet5 ballot3z (some ballot3z) 3 3 none) ]

/-- The four PREPAREs the prepared-chain scenario must emit: each
promotion carries the previous `prepared` as `preparedPrime`. -/
def preparedChainEmissions : List SCPEnvelope :=
  [ makePrepare 0 qSet5 ballot1x none 0 0 none,
    makePrepare 0 qSet5 ballot1x (some ballot1x) 0 0 none,
    makePrepare 0 qSet5 ballot2y (some ballot2y) 0 0 (some ballot1x),
    makePrepare 0 qSet5 ballot3z (some ballot3z) 0 0 (some ballot2y) ]

/-- The post-externalize probes of the `bumpToBallot prevented once
committed (by value and counter)` section: four CONFIRMs on commit
`(2, y)`. -/
def commit2yConfirms : List SCPAction :=
  [ .recv (makeConfirm 1 qSet5 2 ballot2y 2),
    .recv (makeConfirm 2 qSet5 2 ballot2y 2),
    .recv (makeConfirm 3 qSet5 2 ballot2y 2),
    .recv (makeConfirm 4 qSet5 2 ballot2y 2) ]

/-! ## Nomination scenarios (`nomination tests core5`, `v1 is top node`) -/

/-- The harness with `v1` designated as the round's top node
(`mPriorityLookup` returns `1000` for `v1`). -/
def nomV1Top : TestSCP :=
  { localID := 0, localQSet := qSet5,
    priorityLookup := fun n => if n == 1 then 1000 else 1,
    compositeValue := fun _ => yValue }

/-- The harness re-pointed at `v0` as top node (`v0 is new top node`). -/
def nomV0Top : TestSCP :=
  { localID := 0, localQSet := qSet5,
    priorityLookup := fun n => if n == 0 then 1000 else 1,
    compositeValue := fun _ => xValue }

/-- The harness re-pointed at `v2` as top node (`v2 is new top node`). -/
def nomV2Top : TestSCP :=
  { localID := 0, localQSet := qSet5,
    priorityLookup := fun n => if n == 2 then 1000 else 1,
    compositeValue := fun _ => zValue }

/-- The harness re-pointed at `v3` as top node (`v3 is new top node`). -/
def nomV3Top : TestSCP :=
  { localID := 0, localQSet := qSet5,
    priorityLookup := fun n => if n == 3 then 1000 else 1,
    compositeValue := fun _ => zValue }

/-- `nomination waits for v1`, first step: `nominate(0, x, false)` with
`v1` top and no stored envelope from `v1`. -/
def nomWait1 : SlotState × Bool := nominate nomV1Top xValue false initSlotState

/-- After the non-top nominations from `v2` and `v3` (votes `[z]`). -/
def nomWait2 : SlotState :=
  receiveEnvelope nomV1Top (makeNominate 3 qSet5 [zValue] [])
    (receiveEnvelope nomV1Top (makeNominate 2 qSet5 [zValue] []) nomWait1.1)

/-- After `v1`'s nomination (votes `[y]`) arrives. -/
def nomWait3 : SlotState :=
  receiveEnvelope nomV1Top (makeNominate 1 qSet5 [yValue] []) nomWait2

/-- After a further non-top nomination from `v4`. -/
def nomWait4 : SlotState :=
  receiveEnvelope nomV1Top (makeNominate 4 qSet5 [zValue] []) nomWait3

/-- `v1 dead, timeout`: the state after `nominate(0, x, false)` returned
`false` and `v2`'s nomination (votes `[z]`) was recorded. -/
def nomDeadState : SlotState :=
  receiveEnvelope nomV1Top (makeNominate 2 qSet5 [zValue] []) nomWait1.1

/-! ## Claim theorems: concrete scenarios -/

/-- C3: the normal round on `x`.  `bumpState(0,x)` emits `PREPARE(1,x)`;
after `PREPARE(1,x)` from `v1,v2,v3` the node emits
`PREPARE(1,x, prepared=(1,x))` and `ballotDidHearFromQuorum` has fired
exactly once; after the prepared statement from three more peers it
emits `PREPARE` with `(nC=1, nP=1)`; after three CONFIRMs it emits
`CONFIRM` then `EXTERNALIZE` and `valueExternalized(0,x)` has fired
exactly once. -/
theorem normal_round_on_x :
    (runSCP core5SCP (normalRoundActions.take 1)).emissions =
      normalRoundEmissions.take 1 ∧
    (runSCP core5SCP (normalRoundActions.take 4)).emissions =
      normalRoundEmissions.take 2 ∧
    (runSCP core5SCP (normalRoundActions.take 4)).heard = [ballot1x] ∧
    (runSCP core5SCP (normalRoundActions.take 7)).emissions =
      normalRoundEmissions.take 3 ∧
    (runSCP core5SCP normalRoundActions).emissions = normalRoundEmissions ∧
    (runSCP core5SCP normalRoundActions).heard = [ballot1x] ∧
    (runSCP core5SCP normalRoundActions).externalized = [xValue] := by
  exact ⟨rfl, rfl, rfl, rfl, rfl, rfl, rfl⟩

/-- Accessor: the `prepared` field of a PREPARE statement. -/
def stmtPreparedOf : SCPStatement → Option SCPBallot
  | .prepare _ _ p _ _ _ => p
  | _ => none

/-- Accessor: the `preparedPrime` field of a PREPARE statement. -/
def stmtPreparedPrimeOf : SCPStatement → Option SCPBallot
  | .prepare _ _ _ pp _ _ => pp
  | _ => none

/-- C7: the prepared chain `(1,x) → (2,y) → (3,z)` promoted by
v-blocking witnesses produces successive PREPAREs whose
`preparedPrime` equals the `prepared` of the previous emission. -/
theorem prepared_prime_chain :
    (runSCP core5SCP preparedChainActions).emissions = preparedChainEmissions ∧
    (runSCP core5SCP preparedChainActions).emissions.map
        (fun e => stmtPreparedOf e.statement) =
      [none, some ballot1x, some ballot2y, some ballot3z] ∧
    (runSCP core5SCP preparedChainActions).emissions.map
        (fun e => stmtPreparedPrimeOf e.statement) =
      [none, none, some ballot1x, some ballot2y] := by
  exact ⟨rfl, rfl, rfl⟩

/-- C10: on a pristine slot, a single PREPARE carrying a prepared
ballot, or a single CONFIRM, emits nothing. -/
theorem pristine_slot_no_bump :
    (runSCP core5SCP
      [.recv (makePrepare 1 qSet5 ballot1y (some ballot1y) 0 0 none)]).emissions = [] ∧
    (runSCP core5SCP
      [.recv (makeConfirm 1 qSet5 1 ballot1y 1)]).emissions = [] := by
  exact ⟨rfl, rfl⟩

/-- C8: with `v1` designated top node, `nominate(0, x, false)` returns
`false` and emits nothing; NOMINATE envelopes from the non-top peers
`v2, v3` still emit nothing; once `v1`'s NOMINATE with `votes=[y]`
arrives, `v0` emits a NOMINATE with `votes=[y]`; a further non-top
NOMINATE (`v4`) emits nothing more. -/
theorem nomination_top_node_wait :
    nomWait1.2 = false ∧
    nomWait1.1.emissions = [] ∧
    nomWait2.emissions = [] ∧
    nomWait3.emissions = [makeNominate 0 qSet5 [yValue] []] ∧
    nomWait4.emissions = [makeNominate 0 qSet5 [yValue] []] := by
  exact ⟨rfl, rfl, rfl, rfl, rfl⟩

/-! ## Claim theorems: the externalized slot is frozen (C4) -/

/-- An externalized slot drops every further envelope unchanged. -/
theorem receiveEnvelope_frozen (d : TestSCP) (e : SCPEnvelope) (s : SlotState)
    (h : s.bal.phase = SCPPhase.externalize) :
    receiveEnvelope d e s = s := by
  unfold receiveEnvelope
  rw [h]
  rfl

/-- Folding further deliveries over an externalized slot is the
identity. -/
theorem recv_foldl_frozen (d : TestSCP) (es : List SCPEnvelope) (s : SlotState)
    (h : s.bal.phase = SCPPhase.externalize) :
    (es.map SCPAction.recv).foldl (applySCPAction d) s = s := by
  induction es with
  | nil => rfl
  | cons e es ih =>
    simp only [List.map_cons, List.foldl_cons]
    have he : applySCPAction d s (SCPAction.recv e) = s :=
      receiveEnvelope_frozen d e s h
    rw [he, ih]

/-- The normal round ends in the EXTERNALIZE phase. -/
theorem normalRound_phase :
    (runSCP core5SCP normalRoundActions).bal.phase = SCPPhase.externalize := rfl

/-- C4: after the slot externalized `x` in the normal round, delivering
any further envelopes — in particular the four CONFIRMs on commit
`(2,y)` — produces no new emission and leaves the externalized values
unchanged. -/
theorem post_externalize_frozen (es : List SCPEnvelope) :
    (runSCP core5SCP (normalRoundActions ++ es.map SCPAction.recv)).emissions =
      normalRoundEmissions ∧
    (runSCP core5SCP (normalRoundActions ++ es.map SCPAction.recv)).externalized =
      [xValue] ∧
    (runSCP core5SCP (normalRoundActions ++ commit2yConfirms)).emissions =
      normalRoundEmissions ∧
    (runSCP core5SCP (normalRoundActions ++ commit2yConfirms)).externalized =
      [xValue] := by
  have hrun : runSCP core5SCP (normalRoundActions ++ es.map SCPAction.recv) =
      runSCP core5SCP normalRoundActions := by
    unfold runSCP
    rw [List.foldl_append]
    exact recv_foldl_frozen core5SCP es _ normalRound_phase
  refine ⟨?_, ?_, rfl, rfl⟩
  · rw [hrun]
    rfl
  · rw [hrun]
    rfl

/-! ## Claim theorems: the EXTERNALIZE quorum-set hash (C1) -/

/-- C1 counterexample: in the 5-node normal round, the emitted
EXTERNALIZE envelope carries `commitQuorumSetHash` equal to the hash of
the *declared* quorum set `qSet5` — and that hash differs from the hash
of the singleton quorum set `{threshold=1, validators=[v0]}` (hashing
is injective, so distinct quorum sets have distinct hashes). -/
theorem externalize_hash_counterexample :
    (runSCP core5SCP normalRoundActions).emissions.getLast? =
      some (makeExternalize 0 qSet5 ballot1x 1) ∧
    qSet5 ≠ buildSingletonQSet 0 := by
  refine ⟨rfl, ?_⟩
  intro h
  have h4 : (4 : Nat) = 1 := congrArg SCPQuorumSet.threshold h
  exact absurd h4 (by decide)

/-- Every envelope a slot emits is self-signed and reflects either the
node's current ballot statement or its current nomination statement
(both built over the local declared quorum set). -/
def emissionFromSelf (d : TestSCP) (e : SCPEnvelope) : Prop :=
  (∃ bs st, currentStatement d.localQSet bs = some st ∧
     e = ⟨d.localID, st⟩) ∨
  (∃ vs acc, e = ⟨d.localID, .nominate d.localQSet vs acc⟩)

/-- `checkHeard` does not emit. -/
theorem checkHeard_emissions (d : TestSCP) (s : SlotState) :
    (checkHeard d s).emissions = s.emissions := by
  unfold checkHeard
  split
  · rfl
  · split
    · rfl
    · split
      · rfl
      · rfl

/-- `emitIfChanged` emits at most the node's current ballot
statement. -/
theorem emitIfChanged_mem (d : TestSCP) (s : SlotState) :
    ∀ e ∈ (emitIfChanged d s).emissions,
      e ∈ s.emissions ∨ emissionFromSelf d e := by
  unfold emitIfChanged
  split
  · exact fun e he => Or.inl he
  case h_2 st hst =>
    split
    · exact fun e he => Or.inl he
    · intro e he
      simp only [List.mem_append, List.mem_singleton] at he
      rcases he with he | he
      · exact Or.inl he
      · exact Or.inr (Or.inl ⟨s.bal, st, hst, he⟩)

/-- `recordExternalized` does not emit. -/
theorem recordExternalized_emissions (p : SCPPhase) (s : SlotState) :
    (recordExternalized p s).emissions = s.emissions := by
  unfold recordExternalized
  split
  · rfl
  · rfl

/-- `advanceAndEmit` emits at most the node's current ballot
statement. -/
theorem advanceAndEmit_mem (d : TestSCP) (s : SlotState) :
    ∀ e ∈ (advanceAndEmit d s).emissions,
      e ∈ s.emissions ∨ emissionFromSelf d e := by
  intro e he
  unfold advanceAndEmit at he
  rcases emitIfChanged_mem d _ e he with h | h
  · rw [checkHeard_emissions, recordExternalized_emissions] at h
    exact Or.inl h
  · exact Or.inr h

/-- `bumpWithBallot` emits at most the node's current ballot
statement. -/
theorem bumpWithBallot_mem (d : TestSCP) (nb : SCPBallot) (s : SlotState) :
    ∀ e ∈ (bumpWithBallot d nb s).emissions,
      e ∈ s.emissions ∨ emissionFromSelf d e := by
  intro e he
  unfold bumpWithBallot at he
  rcases advanceAndEmit_mem d _ e he with h | h
  · exact Or.inl h
  · exact Or.inr h

/-- `bumpState` emits at most the node's current ballot statement. -/
theorem bumpState_mem (d : TestSCP) (v : Value) (force : Bool) (s : SlotState) :
    ∀ e ∈ (bumpState d v force s).1.emissions,
      e ∈ s.emissions ∨ emissionFromSelf d e := by
  intro e he
  unfold bumpState at he
  by_cases hph : (s.bal.phase == SCPPhase.externalize) = true
  · rw [hph] at he
    exact Or.inl he
  · rw [Bool.not_eq_true] at hph
    rw [hph] at he
    cases hb : s.bal.b with
    | none =>
      rw [hb] at he
      exact bumpWithBallot_mem d _ s e he
    | some bb =>
      rw [hb] at he
      by_cases hf : force = true
      · rw [hf] at he
        exact bumpWithBallot_mem d _ s e he
      · rw [Bool.not_eq_true] at hf
        rw [hf] at he
        exact Or.inl he

/-- `processBallotEnvelope` emits at most the node's current ballot
statement. -/
theorem processBallotEnvelope_mem (d : TestSCP) (n : NodeID)
    (st : SCPStatement) (s : SlotState) :
    ∀ e ∈ (processBallotEnvelope d n st s).emissions,
      e ∈ s.emissions ∨ emissionFromSelf d e := by
  intro e he
  unfold processBallotEnvelope at he
  rcases advanceAndEmit_mem d _ e he with h | h
  · exact Or.inl h
  · exact Or.inr h

/-- `emitNominationAlways` emits the node's current nomination
statement. -/
theorem emitNominationAlways_mem (d : TestSCP) (s : SlotState) :
    ∀ e ∈ (emitNominationAlways d s).emissions,
      e ∈ s.emissions ∨ emissionFromSelf d e := by
  unfold emitNominationAlways
  intro e he
  simp only [List.mem_append, List.mem_singleton] at he
  rcases he with he | he
  · exact Or.inl he
  · exact Or.inr (Or.inr ⟨s.nom.votes, s.nom.accepted, he⟩)

/-- `emitNominationIfChanged` emits at most the nomination statement. -/
theorem emitNominationIfChanged_mem (d : TestSCP) (s : SlotState) :
    ∀ e ∈ (emitNominationIfChanged d s).emissions,
      e ∈ s.emissions ∨ emissionFromSelf d e := by
  intro e he
  unfold emitNominationIfChanged at he
  by_cases hc : nomStateChanged s = true
  · rw [hc] at he
    exact emitNominationAlways_mem d s e he
  · rw [Bool.not_eq_true] at hc
    rw [hc] at he
    exact Or.inl he

/-- `handleNewCandidates` emits at most through `bumpState`. -/
theorem handleNewCandidates_mem (d : TestSCP) (old : List Value)
    (s : SlotState) :
    ∀ e ∈ (handleNewCandidates d old s).emissions,
      e ∈ s.emissions ∨ emissionFromSelf d e := by
  intro e he
  unfold handleNewCandidates at he
  by_cases h1 : (s.nom.candidates == old) = true
  · rw [h1] at he
    exact Or.inl he
  · rw [Bool.not_eq_true] at h1
    rw [h1] at he
    by_cases h2 : old.isEmpty = true
    · rw [h2] at he
      rcases bumpState_mem d _ false _ e he with h | h
      · exact Or.inl h
      · exact Or.inr h
    · rw [Bool.not_eq_true] at h2
      rw [h2] at he
      exact Or.inl he

/-- `nomPromoteAndEmit` emits at most self statements. -/
theorem nomPromoteAndEmit_mem (d : TestSCP) (s : SlotState) :
    ∀ e ∈ (nomPromoteAndEmit d s).emissions,
      e ∈ s.emissions ∨ emissionFromSelf d e := by
  intro e he
  unfold nomPromoteAndEmit at he
  rcases handleNewCandidates_mem d _ _ e he with h | h
  · rcases emitNominationIfChanged_mem d _ e h with h2 | h2
    · exact Or.inl h2
    · exact Or.inr h2
  · exact Or.inr h

/-- `nomPromoteAndEmitAlways` emits at most self statements. -/
theorem nomPromoteAndEmitAlways_mem (d : TestSCP) (s : SlotState) :
    ∀ e ∈ (nomPromoteAndEmitAlways d s).emissions,
      e ∈ s.emissions ∨ emissionFromSelf d e := by
  intro e he
  unfold nomPromoteAndEmitAlways at he
  rcases handleNewCandidates_mem d _ _ e he with h | h
  · rcases emitNominationAlways_mem d _ e h with h2 | h2
    · exact Or.inl h2
    · exact Or.inr h2
  · exact Or.inr h

/-- `processNominate` emits at most self statements. -/
theorem processNominate_mem (d : TestSCP) (n : NodeID) (st : SCPStatement)
    (s : SlotState) :
    ∀ e ∈ (processNominate d n st s).emissions,
      e ∈ s.emissions ∨ emissionFromSelf d e := by
  intro e he
  unfold processNominate at he
  by_cases hs : (!(nomRecordStatement n st s).nom.nominationStarted) = true
  · rw [hs] at he
    exact Or.inl he
  · rw [Bool.not_eq_true] at hs
    rw [hs] at he
    rcases nomPromoteAndEmit_mem d _ e he with h | h
    · left
      have h2 : (nomAdoptFromTop d n st (nomRecordStatement n st s)).emissions =
          s.emissions := by
        unfold nomAdoptFromTop
        split
        · rfl
        · rfl
      rw [h2] at h
      exact h
    · exact Or.inr h

/-- `nominate` emits at most self statements. -/
theorem nominate_mem (d : TestSCP) (v : Value) (t : Bool) (s : SlotState) :
    ∀ e ∈ (nominate d v t s).1.emissions,
      e ∈ s.emissions ∨ emissionFromSelf d e := by
  intro e he
  unfold nominate at he
  by_cases hv : (nominateNewVotes d v (nomStartRound t s) ==
      (nomStartRound t s).nom.votes) = true
  · rw [hv] at he
    exact Or.inl he
  · rw [Bool.not_eq_true] at hv
    rw [hv] at he
    rcases nomPromoteAndEmitAlways_mem d _ e he with h | h
    · exact Or.inl h
    · exact Or.inr h

/-- `receiveEnvelope` emits at most self statements. -/
theorem receiveEnvelope_mem (d : TestSCP) (ev : SCPEnvelope) (s : SlotState) :
    ∀ e ∈ (receiveEnvelope d ev s).emissions,
      e ∈ s.emissions ∨ emissionFromSelf d e := by
  intro e he
  unfold receiveEnvelope at he
  by_cases hph : (s.bal.phase == SCPPhase.externalize) = true
  · rw [hph] at he
    exact Or.inl he
  · rw [Bool.not_eq_true] at hph
    rw [hph] at he
    cases hst : ev.statement with
    | nominate q vs acc =>
      rw [hst] at he
      exact processNominate_mem d _ _ _ e he
    | prepare q b p pp nc np =>
      rw [hst] at he
      exact processBallotEnvelope_mem d _ _ _ e he
    | confirm q np c n =>
      rw [hst] at he
      exact processBallotEnvelope_mem d _ _ _ e he
    | externalize q c n =>
      rw [hst] at he
      exact processBallotEnvelope_mem d _ _ _ e he

/-- Every envelope a run ever emits is a self statement over the local
declared quorum set. -/
theorem runSCP_mem (d : TestSCP) (acts : List SCPAction) :
    ∀ e ∈ (runSCP d acts).emissions, emissionFromSelf d e := by
  suffices h : ∀ (acts : List SCPAction) (s : SlotState),
      (∀ e ∈ s.emissions, emissionFromSelf d e) →
      ∀ e ∈ (acts.foldl (applySCPAction d) s).emissions, emissionFromSelf d e by
    exact h acts initSlotState (fun e he => absurd he (List.not_mem_nil e))
  intro acts
  induction acts with
  | nil => exact fun s hs => hs
  | cons a acts ih =>
    intro s hs
    simp only [List.foldl_cons]
    refine ih (applySCPAction d s a) ?_
    intro e he
    match a with
    | .recv ev =>
      rcases receiveEnvelope_mem d ev s e he with h | h
      · exact hs e h
      · exact h
    | .bump v f =>
      rcases bumpState_mem d v f s e he with h | h
      · exact hs e h
      · exact h

/-- A current-statement EXTERNALIZE always carries the local declared
quorum set as its commit quorum-set hash. -/
theorem currentStatement_externalize_hash (localQ : SCPQuorumSet)
    (bs : BallotState) (q : SCPQuorumSet) (c : SCPBallot) (n : Nat)
    (h : currentStatement localQ bs = some (.externalize q c n)) :
    q = localQ := by
  unfold currentStatement at h
  split at h
  · exact absurd h (by simp)
  · split at h
    · exact absurd h (by simp)
    · exact absurd h (by simp)
    · injection h with h1
      injection h1 with hq hc hn
      exact hq.symm

/-- C1 amended: for every run (any harness, any envelopes and bumps),
every EXTERNALIZE envelope emitted carries `commitQuorumSetHash` equal
to the hash of the node's *declared* quorum set (the singleton quorum
set is only used when judging other nodes' EXTERNALIZE statements in
the quorum calculus, cf. `qsetOfStatement`). -/
theorem externalize_carries_declared_hash (d : TestSCP)
    (acts : List SCPAction) (e : SCPEnvelope)
    (he : e ∈ (runSCP d acts).emissions) (q : SCPQuorumSet) (c : SCPBallot)
    (n : Nat) (hext : e.statement = SCPStatement.externalize q c n) :
    q = d.localQSet := by
  rcases runSCP_mem d acts e he with ⟨bs, st, hcur, hquote⟩ | ⟨vs, acc, hquote⟩
  · rw [hquote] at hext
    simp only at hext
    rw [hext] at hcur
    exact currentStatement_externalize_hash d.localQSet bs q c n hcur
  · rw [hquote] at hext
    simp only at hext
    exact absurd hext (by simp)

/-- The EXTERNALIZE envelope of the normal round is among its
emissions. -/
theorem normalRound_ext_mem :
    makeExternalize 0 qSet5 ballot1x 1 ∈
      (runSCP core5SCP normalRoundActions).emissions := by
  have h : (runSCP core5SCP normalRoundActions).emissions =
      normalRoundEmissions := rfl
  rw [h]
  unfold normalRoundEmissions
  exact .tail _ (.tail _ (.tail _ (.tail _ (.head _))))

/-- Witness for `externalize_carries_declared_hash`, at the normal
round's EXTERNALIZE emission. -/
theorem externalize_carries_declared_hash_witness :
    qSet5 = core5SCP.localQSet :=
  externalize_carries_declared_hash core5SCP normalRoundActions
    (makeExternalize 0 qSet5 ballot1x 1) normalRound_ext_mem
    qSet5 ballot1x 1 rfl

/-! ## Claim theorems: monotonicity of emitted PREPARE ballots (C2) -/

/-- `ballotLt` unfolded to arithmetic. -/
theorem ballotLt_iff (a b : SCPBallot) :
    ballotLt a b = true ↔
      (a.counter < b.counter ∨ (a.counter = b.counter ∧ a.value < b.value)) := by
  cases a with
  | mk ac av =>
    cases b with
    | mk bc bv =>
      unfold ballotLt
      simp [Nat.blt_eq]

/-- `ballotLe` is the reflexive closure of `ballotLt`. -/
theorem ballotLe_or (a b : SCPBallot) :
    ballotLe a b = true ↔ (ballotLt a b = true ∨ a = b) := by
  unfold ballotLe
  simp

/-- The strict lexicographic order on ballots is transitive. -/
theorem ballotLt_trans {a b c : SCPBallot} (h1 : ballotLt a b = true)
    (h2 : ballotLt b c = true) : ballotLt a c = true := by
  rw [ballotLt_iff] at h1 h2 ⊢
  rcases h1 with h1 | ⟨h1c, h1v⟩
  · rcases h2 with h2 | ⟨h2c, h2v⟩
    · exact Or.inl (Nat.lt_trans h1 h2)
    · exact Or.inl (h2c ▸ h1)
  · rcases h2 with h2 | ⟨h2c, h2v⟩
    · exact Or.inl (h1c ▸ h2)
    · exact Or.inr ⟨h1c.trans h2c, Nat.lt_trans h1v h2v⟩

/-- The lexicographic order on ballots is reflexive. -/
theorem ballotLe_refl (a : SCPBallot) : ballotLe a a = true := by
  unfold ballotLe
  simp

/-- Strict implies non-strict. -/
theorem ballotLt_le {a b : SCPBallot} (h : ballotLt a b = true) :
    ballotLe a b = true := by
  unfold ballotLe
  rw [h]
  rfl

/-- The lexicographic order on ballots is transitive. -/
theorem ballotLe_trans {a b c : SCPBallot} (h1 : ballotLe a b = true)
    (h2 : ballotLe b c = true) : ballotLe a c = true := by
  rw [ballotLe_or] at h1 h2 ⊢
  rcases h1 with h1 | rfl
  · rcases h2 with h2 | rfl
    · exact Or.inl (ballotLt_trans h1 h2)
    · exact Or.inl h1
  · exact h2

/-- Non-strict order on optional ballots (`none` below everything). -/
def optBLe : Option SCPBallot → Option SCPBallot → Bool
  | none, _ => true
  | some _, none => false
  | some a, some b => ballotLe a b

/-- `optBLe` is reflexive. -/
theorem optBLe_refl (b : Option SCPBallot) : optBLe b b = true := by
  cases b with
  | none => rfl
  | some a => exact ballotLe_refl a

/-- `optBLe` is transitive. -/
theorem optBLe_trans {a b c : Option SCPBallot} (h1 : optBLe a b = true)
    (h2 : optBLe b c = true) : optBLe a c = true := by
  cases a with
  | none => rfl
  | some x =>
    cases b with
    | none => exact absurd h1 (by simp [optBLe])
    | some y =>
      cases c with
      | none => exact absurd h2 (by simp [optBLe])
      | some z => exact ballotLe_trans h1 h2

/-- A monotone bump never lowers the current ballot. -/
theorem optBLe_bumpIfHigher (b : Option SCPBallot) (q : SCPBallot) :
    optBLe b (bumpIfHigher b q) = true := by
  unfold bumpIfHigher
  by_cases h : optLtBallot b q = true
  · rw [if_pos h]
    cases b with
    | none => rfl
    | some a => exact ballotLt_le h
  · rw [if_neg h]
    exact optBLe_refl b

/-- `optBLe (some a) x` forces `x` to be a ballot above `a`. -/
theorem optBLe_some {a : SCPBallot} {x : Option SCPBallot}
    (h : optBLe (some a) x = true) :
    ∃ b, x = some b ∧ ballotLe a b = true := by
  cases x with
  | none => exact absurd h (by simp [optBLe])
  | some b => exact ⟨b, rfl, h⟩

/-- A ballot-state transition is monotone when, whenever it lands in
the PREPARE phase, it started there and did not lower the current
ballot (the phase only moves forward and `b` only moves up while
preparing). -/
def StepOk (st st2 : BallotState) : Prop :=
  st2.phase = SCPPhase.prepare →
    (st.phase = SCPPhase.prepare ∧ optBLe st.b st2.b = true)

/-- `StepOk` is reflexive. -/
theorem stepOk_refl (st : BallotState) : StepOk st st :=
  fun h => ⟨h, optBLe_refl st.b⟩

/-- `StepOk` is transitive. -/
theorem stepOk_trans {a b c : BallotState} (h1 : StepOk a b)
    (h2 : StepOk b c) : StepOk a c := by
  intro hc
  obtain ⟨hb, hle2⟩ := h2 hc
  obtain ⟨ha, hle1⟩ := h1 hb
  exact ⟨ha, optBLe_trans hle1 hle2⟩

/-- A fold of monotone steps is monotone. -/
theorem stepOk_foldl {α : Type} (f : BallotState → α → BallotState)
    (hf : ∀ st x, StepOk st (f st x)) :
    ∀ (l : List α) (st : BallotState), StepOk st (l.foldl f st) := by
  intro l
  induction l with
  | nil => exact fun st => stepOk_refl st
  | cons x l ih =>
    intro st
    exact stepOk_trans (hf st x) (ih (f st x))

/-- `applyPrepared` keeps the phase and only raises `b`. -/
theorem applyPreparedSome_stepOk (q p0 : SCPBallot) (st : BallotState) :
    StepOk st (applyPreparedSome q p0 st) := by
  unfold applyPreparedSome
  split
  · exact fun h => ⟨h, optBLe_bumpIfHigher st.b q⟩
  · split
    · exact fun h => ⟨h, optBLe_refl st.b⟩
    · exact stepOk_refl st

/-- `applyPrepared` keeps the phase and only raises `b`. -/
theorem applyPrepared_stepOk (q : SCPBallot) (st : BallotState) :
    StepOk st (applyPrepared q st) := by
  unfold applyPrepared
  cases hp : st.p with
  | none => exact fun h => ⟨h, optBLe_bumpIfHigher st.b q⟩
  | some p0 => exact applyPreparedSome_stepOk q p0 st

/-- Step 1 of the cascade is monotone. -/
theorem attemptPrepared_stepOk (localQ : SCPQuorumSet) (bs : BallotState) :
    StepOk bs (attemptPrepared localQ bs) := by
  unfold attemptPrepared
  refine stepOk_foldl _ ?_ _ bs
  intro st q
  split
  · exact applyPrepared_stepOk q st
  · exact stepOk_refl st

/-- `setCommitFromBallot` keeps the phase and ballot. -/
theorem setCommitFromBallot_stepOk (st : BallotState) :
    StepOk st (setCommitFromBallot st) := by
  unfold setCommitFromBallot
  split
  · exact fun h => ⟨h, optBLe_refl st.b⟩
  · exact stepOk_refl st

/-- `applyConfirmPrepared` keeps the phase and only raises `b`. -/
theorem applyConfirmPrepared_stepOk (q : SCPBallot) (st : BallotState) :
    StepOk st (applyConfirmPrepared q st) := by
  unfold applyConfirmPrepared
  refine stepOk_trans (b := { st with bigP := some q, b := bumpIfHigher st.b q })
    ?_ (setCommitFromBallot_stepOk _)
  exact fun h => ⟨h, optBLe_bumpIfHigher st.b q⟩

/-- Step 2 of the cascade is monotone. -/
theorem attemptConfirmPrepared_stepOk (localQ : SCPQuorumSet)
    (bs : BallotState) : StepOk bs (attemptConfirmPrepared localQ bs) := by
  unfold attemptConfirmPrepared
  refine stepOk_foldl _ ?_ _ bs
  intro st q
  split
  · exact applyConfirmPrepared_stepOk q st
  · exact stepOk_refl st

/-- `applyAcceptCommit` leaves the PREPARE phase. -/
theorem applyAcceptCommit_stepOk (v : Value) (lo hi : Nat)
    (st : BallotState) : StepOk st (applyAcceptCommit v lo hi st) := by
  intro h
  have hph : (applyAcceptCommit v lo hi st).phase = SCPPhase.confirm := rfl
  rw [hph] at h
  exact absurd h (by decide)

/-- One step-3 candidate is monotone (it leaves the PREPARE phase when
it fires). -/
theorem acceptCommitStep_stepOk (localQ : SCPQuorumSet) (st : BallotState)
    (cand : Value × Nat × Nat) : StepOk st (acceptCommitStep localQ st cand) := by
  unfold acceptCommitStep
  split
  · exact applyAcceptCommit_stepOk cand.1 cand.2.1 cand.2.2 st
  · exact stepOk_refl st

/-- Step 3 of the cascade is monotone. -/
theorem attemptAcceptCommit_stepOk (localQ : SCPQuorumSet)
    (bs : BallotState) : StepOk bs (attemptAcceptCommit localQ bs) := by
  unfold attemptAcceptCommit
  split
  · exact stepOk_foldl _ (acceptCommitStep_stepOk localQ) _ bs
  · exact stepOk_refl bs

/-- One step-4 candidate is monotone (it leaves the CONFIRM phase when
it fires). -/
theorem confirmCommitStep_stepOk (localQ : SCPQuorumSet) (cv : Value)
    (st : BallotState) (cand : Value × Nat × Nat) :
    StepOk st (confirmCommitStep localQ cv st cand) := by
  unfold confirmCommitStep
  split
  · intro h
    exact SCPPhase.noConfusion h
  · exact stepOk_refl st

/-- Step 4 of the cascade is monotone. -/
theorem attemptConfirmCommit_stepOk (localQ : SCPQuorumSet)
    (bs : BallotState) : StepOk bs (attemptConfirmCommit localQ bs) := by
  unfold attemptConfirmCommit
  split
  · split
    · exact stepOk_refl bs
    · exact stepOk_foldl _ (confirmCommitStep_stepOk localQ _) _ bs
  · exact stepOk_refl bs

/-- One cascade pass is monotone. -/
theorem advanceOnce_stepOk (localQ : SCPQuorumSet) (bs : BallotState) :
    StepOk bs (advanceOnce localQ bs) := by
  unfold advanceOnce
  exact stepOk_trans (attemptPrepared_stepOk localQ bs)
    (stepOk_trans (attemptConfirmPrepared_stepOk localQ _)
      (stepOk_trans (attemptAcceptCommit_stepOk localQ _)
        (attemptConfirmCommit_stepOk localQ _)))

/-- Recording the node's own statement is monotone. -/
theorem recordSelf_stepOk (localID : NodeID) (localQ : SCPQuorumSet)
    (bs : BallotState) : StepOk bs (recordSelf localID localQ bs) := by
  unfold recordSelf
  split
  · exact fun h => ⟨h, optBLe_refl bs.b⟩
  · exact stepOk_refl bs

/-- The whole cascade is monotone: while in the PREPARE phase the
current ballot never decreases, and the phase never moves backwards. -/
theorem advanceCascade_stepOk (localID : NodeID) (localQ : SCPQuorumSet) :
    ∀ (fuel : Nat) (bs : BallotState),
      StepOk bs (advanceCascade localID localQ fuel bs) := by
  intro fuel
  induction fuel with
  | zero => exact fun bs => stepOk_refl bs
  | succ n ih =>
    intro bs
    exact stepOk_trans
      (stepOk_trans (advanceOnce_stepOk localQ bs)
        (recordSelf_stepOk localID localQ _))
      (ih _)

/-- The ballot field of a PREPARE statement (`none` for the other
pledges, which carry no `b` field in this protocol version). -/
def prepBallotOf : SCPStatement → Option SCPBallot
  | .prepare _ bb _ _ _ _ => some bb
  | _ => none

/-- The ballots of the PREPARE envelopes of an emission trace, in
order. -/
def prepBallots (es : List SCPEnvelope) : List SCPBallot :=
  es.filterMap (fun e => prepBallotOf e.statement)

/-- Is a ballot list non-decreasing under the lexicographic order? -/
def ballotChainLe : List SCPBallot → Bool
  | [] => true
  | [_] => true
  | a :: b :: rest => ballotLe a b && ballotChainLe (b :: rest)

/-- Appending an upper bound to a non-decreasing list keeps it
non-decreasing. -/
theorem ballotChainLe_concat (l : List SCPBallot) (x : SCPBallot)
    (hchain : ballotChainLe l = true)
    (hlast : ∀ lb, l.getLast? = some lb → ballotLe lb x = true) :
    ballotChainLe (l ++ [x]) = true := by
  induction l with
  | nil => rfl
  | cons a l ih =>
    cases l with
    | nil =>
      have ha := hlast a rfl
      show (ballotLe a x && ballotChainLe [x]) = true
      rw [ha]
      rfl
    | cons b l2 =>
      have hc : ballotChainLe (a :: b :: l2) =
          (ballotLe a b && ballotChainLe (b :: l2)) := rfl
      rw [hc, Bool.and_eq_true] at hchain
      have hih := ih hchain.2 (fun lb hl => hlast lb hl)
      show (ballotLe a b && ballotChainLe (b :: (l2 ++ [x]))) = true
      rw [hchain.1, Bool.true_and]
      exact hih

/-- `prepBallots` distributes over append. -/
theorem prepBallots_append (es : List SCPEnvelope) (es2 : List SCPEnvelope) :
    prepBallots (es ++ es2) = prepBallots es ++ prepBallots es2 := by
  unfold prepBallots
  rw [List.filterMap_append]

/-- The invariant behind the monotonicity of emitted PREPARE ballots:
the trace so far is non-decreasing, and while the slot is still in the
PREPARE phase the last emitted PREPARE ballot is bounded by the current
ballot `b`. -/
def PrepMonoInv (s : SlotState) : Prop :=
  ballotChainLe (prepBallots s.emissions) = true ∧
  (s.bal.phase = SCPPhase.prepare →
    ∀ lb, (prepBallots s.emissions).getLast? = some lb →
      ∃ bb, s.bal.b = some bb ∧ ballotLe lb bb = true)

/-- Transport of the invariant along equal emissions, ballot and
phase. -/
theorem prepMonoInv_transport {s s2 : SlotState}
    (he : s2.emissions = s.emissions) (hb : s2.bal.b = s.bal.b)
    (hp : s2.bal.phase = s.bal.phase) (h : PrepMonoInv s) :
    PrepMonoInv s2 := by
  unfold PrepMonoInv at *
  rw [he, hb, hp]
  exact h

/-- `checkHeard` keeps the ballot. -/
theorem checkHeard_bal_b (d : TestSCP) (s : SlotState) :
    (checkHeard d s).bal.b = s.bal.b := by
  unfold checkHeard
  split
  · rfl
  · split
    · rfl
    · split
      · rfl
      · rfl

/-- `checkHeard` keeps the phase. -/
theorem checkHeard_bal_phase (d : TestSCP) (s : SlotState) :
    (checkHeard d s).bal.phase = s.bal.phase := by
  unfold checkHeard
  split
  · rfl
  · split
    · rfl
    · split
      · rfl
      · rfl

/-- `recordExternalized` keeps the ballot state. -/
theorem recordExternalized_bal (p : SCPPhase) (s : SlotState) :
    (recordExternalized p s).bal = s.bal := by
  unfold recordExternalized
  split
  · rfl
  · rfl

/-- The cascade preserves the invariant (it only raises `b` while
preparing, and emits nothing by itself). -/
theorem prepMonoInv_cascade (d : TestSCP) (s : SlotState)
    (h : PrepMonoInv s) :
    PrepMonoInv { s with bal := advanceCascade d.localID d.localQSet 6 s.bal } := by
  have hstep := advanceCascade_stepOk d.localID d.localQSet 6 s.bal
  constructor
  · exact h.1
  · intro hph lb hlast
    obtain ⟨hph0, hble⟩ := hstep hph
    obtain ⟨bb, hbb, hle⟩ := h.2 hph0 lb hlast
    rw [hbb] at hble
    obtain ⟨bb2, hbb2, hle2⟩ := optBLe_some hble
    exact ⟨bb2, hbb2, ballotLe_trans hle hle2⟩

/-- A statement produced by `currentStatement` is either a PREPARE
reflecting the current phase and ballot, or carries no `b` field. -/
theorem currentStatement_prepare_char (localQ : SCPQuorumSet)
    (bs : BallotState) (st : SCPStatement)
    (h : currentStatement localQ bs = some st) :
    (∃ bb, prepBallotOf st = some bb ∧
       bs.phase = SCPPhase.prepare ∧ bs.b = some bb) ∨
    prepBallotOf st = none := by
  unfold currentStatement at h
  cases hb : bs.b with
  | none =>
    rw [hb] at h
    exact absurd h (by simp)
  | some bb =>
    rw [hb] at h
    cases hph : bs.phase with
    | prepare =>
      rw [hph] at h
      left
      injection h with h1
      refine ⟨bb, ?_, rfl, rfl⟩
      rw [← h1]
      rfl
    | confirm =>
      rw [hph] at h
      right
      injection h with h1
      rw [← h1]
      rfl
    | externalize =>
      rw [hph] at h
      right
      injection h with h1
      rw [← h1]
      rfl

/-- `emitIfChanged` preserves the invariant: an appended PREPARE
carries the current ballot, which bounds the previous PREPARE. -/
theorem emitIfChanged_inv (d : TestSCP) (s : SlotState)
    (h : PrepMonoInv s) : PrepMonoInv (emitIfChanged d s) := by
  unfold emitIfChanged
  cases hcur : currentStatement d.localQSet s.bal with
  | none => exact h
  | some st =>
    dsimp only
    by_cases hsame : (match s.bal.lastEmitted with
        | some e0 => stmtBeq e0 st
        | none => false) = true
    · rw [if_pos hsame]
      exact h
    · rw [if_neg hsame]
      rcases currentStatement_prepare_char d.localQSet s.bal st hcur with
        ⟨bb, hpb, hph, hb⟩ | hnone
      · constructor
        · show ballotChainLe (prepBallots (s.emissions ++ [⟨d.localID, st⟩])) = true
          rw [prepBallots_append]
          have hone : prepBallots [⟨d.localID, st⟩] = [bb] := by
            unfold prepBallots
            simp [List.filterMap, hpb]
          rw [hone]
          refine ballotChainLe_concat _ bb h.1 ?_
          intro lb hlast
          obtain ⟨bb0, hbb0, hle⟩ := h.2 hph lb hlast
          rw [hb] at hbb0
          injection hbb0 with hbb0e
          rw [hbb0e]
          exact hle
        · intro hph2 lb hlast2
          refine ⟨bb, hb, ?_⟩
          have hone : prepBallots [⟨d.localID, st⟩] = [bb] := by
            unfold prepBallots
            simp [List.filterMap, hpb]
          have hlast3 : (prepBallots (s.emissions ++ [⟨d.localID, st⟩])).getLast? =
              some lb := hlast2
          rw [prepBallots_append, hone, List.getLast?_concat] at hlast3
          injection hlast3 with hlb
          rw [← hlb]
          exact ballotLe_refl bb
      · constructor
        · show ballotChainLe (prepBallots (s.emissions ++ [⟨d.localID, st⟩])) = true
          rw [prepBallots_append]
          have hone : prepBallots [⟨d.localID, st⟩] = [] := by
            unfold prepBallots
            simp [List.filterMap, hnone]
          rw [hone, List.append_nil]
          exact h.1
        · intro hph2 lb hlast2
          have hone : prepBallots [⟨d.localID, st⟩] = [] := by
            unfold prepBallots
            simp [List.filterMap, hnone]
          have hlast3 : (prepBallots (s.emissions ++ [⟨d.localID, st⟩])).getLast? =
              some lb := hlast2
          rw [prepBallots_append, hone, List.append_nil] at hlast3
          exact h.2 hph2 lb hlast3

/-- `advanceAndEmit` preserves the invariant. -/
theorem advanceAndEmit_inv (d : TestSCP) (s : SlotState)
    (h : PrepMonoInv s) : PrepMonoInv (advanceAndEmit d s) := by
  unfold advanceAndEmit
  apply emitIfChanged_inv
  have h1 := prepMonoInv_cascade d s h
  have h2 := prepMonoInv_transport (s := { s with
      bal := advanceCascade d.localID d.localQSet 6 s.bal })
    (recordExternalized_emissions s.bal.phase _)
    (congrArg BallotState.b (recordExternalized_bal s.bal.phase _))
    (congrArg BallotState.phase (recordExternalized_bal s.bal.phase _)) h1
  exact prepMonoInv_transport (checkHeard_emissions d _)
    (checkHeard_bal_b d _) (checkHeard_bal_phase d _) h2

/-- `bumpWithBallot` preserves the invariant when the installed ballot
does not decrease `b`. -/
theorem bumpWithBallot_inv (d : TestSCP) (nb : SCPBallot) (s : SlotState)
    (hble : optBLe s.bal.b (some nb) = true) (h : PrepMonoInv s) :
    PrepMonoInv (bumpWithBallot d nb s) := by
  unfold bumpWithBallot
  apply advanceAndEmit_inv
  constructor
  · exact h.1
  · intro hph lb hlast
    obtain ⟨bb0, hbb0, hle⟩ := h.2 hph lb hlast
    refine ⟨nb, rfl, ?_⟩
    rw [hbb0] at hble
    exact ballotLe_trans hle hble

/-- A counter bump is never below the old ballot. -/
theorem ballotLe_counter_succ (bb : SCPBallot) (v : Value) :
    ballotLe bb ⟨bb.counter + 1, v⟩ = true := by
  apply ballotLt_le
  rw [ballotLt_iff]
  exact Or.inl (Nat.lt_succ_self bb.counter)

/-- `bumpState` preserves the invariant. -/
theorem bumpState_inv (d : TestSCP) (v : Value) (force : Bool)
    (s : SlotState) (h : PrepMonoInv s) :
    PrepMonoInv (bumpState d v force s).1 := by
  unfold bumpState
  by_cases hph : (s.bal.phase == SCPPhase.externalize) = true
  · rw [hph]
    exact h
  · rw [Bool.not_eq_true] at hph
    rw [hph]
    cases hb : s.bal.b with
    | none =>
      refine bumpWithBallot_inv d _ s ?_ h
      rw [hb]
      rfl
    | some bb =>
      by_cases hf : force = true
      · rw [hf]
        refine bumpWithBallot_inv d _ s ?_ h
        rw [hb]
        exact ballotLe_counter_succ bb (pickBumpValue s.bal v)
      · rw [Bool.not_eq_true] at hf
        rw [hf]
        exact h

/-- `processBallotEnvelope` preserves the invariant. -/
theorem processBallotEnvelope_inv (d : TestSCP) (n : NodeID)
    (st : SCPStatement) (s : SlotState) (h : PrepMonoInv s) :
    PrepMonoInv (processBallotEnvelope d n st s) := by
  unfold processBallotEnvelope
  apply advanceAndEmit_inv
  exact prepMonoInv_transport rfl rfl rfl h

/-- `emitNominationAlways` preserves the invariant (NOMINATE envelopes
carry no `b` field). -/
theorem emitNominationAlways_inv (d : TestSCP) (s : SlotState)
    (h : PrepMonoInv s) : PrepMonoInv (emitNominationAlways d s) := by
  unfold emitNominationAlways
  constructor
  · show ballotChainLe (prepBallots (s.emissions ++
      [⟨d.localID, .nominate d.localQSet s.nom.votes s.nom.accepted⟩])) = true
    rw [prepBallots_append]
    have hone : prepBallots
        [⟨d.localID, .nominate d.localQSet s.nom.votes s.nom.accepted⟩] = [] := by
      rfl
    rw [hone, List.append_nil]
    exact h.1
  · intro hph lb hlast
    have hlast3 : (prepBallots (s.emissions ++
        [⟨d.localID, .nominate d.localQSet s.nom.votes s.nom.accepted⟩])).getLast? =
        some lb := hlast
    rw [prepBallots_append] at hlast3
    have hone : prepBallots
        [⟨d.localID, .nominate d.localQSet s.nom.votes s.nom.accepted⟩] = [] := by
      rfl
    rw [hone, List.append_nil] at hlast3
    exact h.2 hph lb hlast3

/-- `emitNominationIfChanged` preserves the invariant. -/
theorem emitNominationIfChanged_inv (d : TestSCP) (s : SlotState)
    (h : PrepMonoInv s) : PrepMonoInv (emitNominationIfChanged d s) := by
  unfold emitNominationIfChanged
  by_cases hc : nomStateChanged s = true
  · rw [hc]
    exact emitNominationAlways_inv d s h
  · rw [Bool.not_eq_true] at hc
    rw [hc]
    exact h

/-- `handleNewCandidates` preserves the invariant. -/
theorem handleNewCandidates_inv (d : TestSCP) (old : List Value)
    (s : SlotState) (h : PrepMonoInv s) :
    PrepMonoInv (handleNewCandidates d old s) := by
  unfold handleNewCandidates
  by_cases h1 : (s.nom.candidates == old) = true
  · rw [h1]
    exact h
  · rw [Bool.not_eq_true] at h1
    rw [h1]
    by_cases h2 : old.isEmpty = true
    · rw [h2]
      refine bumpState_inv d _ false _ ?_
      exact prepMonoInv_transport rfl rfl rfl h
    · rw [Bool.not_eq_true] at h2
      rw [h2]
      exact prepMonoInv_transport rfl rfl rfl h

/-- `nomPromoteAndEmit` preserves the invariant. -/
theorem nomPromoteAndEmit_inv (d : TestSCP) (s : SlotState)
    (h : PrepMonoInv s) : PrepMonoInv (nomPromoteAndEmit d s) := by
  unfold nomPromoteAndEmit
  exact handleNewCandidates_inv d _ _
    (emitNominationIfChanged_inv d _ (prepMonoInv_transport rfl rfl rfl h))

/-- `processNominate` preserves the invariant. -/
theorem processNominate_inv (d : TestSCP) (n : NodeID) (st : SCPStatement)
    (s : SlotState) (h : PrepMonoInv s) :
    PrepMonoInv (processNominate d n st s) := by
  unfold processNominate
  by_cases hs : (!(nomRecordStatement n st s).nom.nominationStarted) = true
  · rw [hs]
    exact prepMonoInv_transport rfl rfl rfl h
  · rw [Bool.not_eq_true] at hs
    rw [hs]
    apply nomPromoteAndEmit_inv
    have h2 : PrepMonoInv (nomRecordStatement n st s) :=
      prepMonoInv_transport rfl rfl rfl h
    unfold nomAdoptFromTop
    by_cases ht : (n == roundTopNode d && !(roundTopNode d == d.localID)) = true
    · rw [ht]
      exact prepMonoInv_transport rfl rfl rfl h2
    · rw [Bool.not_eq_true] at ht
      rw [ht]
      exact h2

/-- `nominate` preserves the invariant. -/
theorem nominate_inv (d : TestSCP) (v : Value) (t : Bool) (s : SlotState)
    (h : PrepMonoInv s) : PrepMonoInv (nominate d v t s).1 := by
  unfold nominate
  by_cases hv : (nominateNewVotes d v (nomStartRound t s) ==
      (nomStartRound t s).nom.votes) = true
  · rw [hv]
    exact prepMonoInv_transport rfl rfl rfl h
  · rw [Bool.not_eq_true] at hv
    rw [hv]
    unfold nomPromoteAndEmitAlways
    apply handleNewCandidates_inv
    apply emitNominationAlways_inv
    exact prepMonoInv_transport rfl rfl rfl h

/-- `receiveEnvelope` preserves the invariant. -/
theorem receiveEnvelope_inv (d : TestSCP) (ev : SCPEnvelope) (s : SlotState)
    (h : PrepMonoInv s) : PrepMonoInv (receiveEnvelope d ev s) := by
  unfold receiveEnvelope
  by_cases hph : (s.bal.phase == SCPPhase.externalize) = true
  · rw [hph]
    exact h
  · rw [Bool.not_eq_true] at hph
    rw [hph]
    cases hst : ev.statement with
    | nominate q vs acc => exact processNominate_inv d _ _ _ h
    | prepare q b p pp nc np => exact processBallotEnvelope_inv d _ _ _ h
    | confirm q np c n => exact processBallotEnvelope_inv d _ _ _ h
    | externalize q c n => exact processBallotEnvelope_inv d _ _ _ h

/-- The fresh slot satisfies the invariant. -/
theorem initSlot_inv : PrepMonoInv initSlotState := by
  constructor
  · rfl
  · intro hph lb hlast
    exact absurd hlast (by simp [prepBallots, initSlotState])

/-- C2 amended: for every harness and every sequence of delivered
envelopes and `bumpState` calls, the sequence of ballot `b` fields
carried by the node's successive emitted PREPARE envelopes is
non-decreasing under the lexicographic ballot order (consecutive
PREPAREs may repeat the same `b`; CONFIRM/EXTERNALIZE statements carry
no `b` field in this protocol version). -/
theorem prepare_ballots_nondecreasing (d : TestSCP) (acts : List SCPAction) :
    ballotChainLe (prepBallots (runSCP d acts).emissions) = true := by
  suffices h : ∀ (acts : List SCPAction) (s : SlotState), PrepMonoInv s →
      PrepMonoInv (acts.foldl (applySCPAction d) s) by
    exact (h acts initSlotState initSlot_inv).1
  intro acts
  induction acts with
  | nil => exact fun s hs => hs
  | cons a acts ih =>
    intro s hs
    refine ih (applySCPAction d s a) ?_
    match a with
    | .recv ev => exact receiveEnvelope_inv d ev s hs
    | .bump v f => exact bumpState_inv d v f s hs

/-- C2 counterexample: in the normal round the first two emitted
envelopes are PREPAREs carrying the same ballot `(1,x)` — the sequence
of emitted `b` fields is not strictly increasing. -/
theorem prepare_ballots_not_strictly_increasing :
    prepBallots (runSCP core5SCP normalRoundActions).emissions =
      [ballot1x, ballot1x, ballot1x] ∧
    ballotLt ballot1x ballot1x = false := by
  exact ⟨rfl, rfl⟩

/-! ## Claim theorems: `nominate` returns true iff a NOMINATE was emitted (C9) -/

/-- Number of NOMINATE envelopes in an emission trace. -/
def countNominates (es : List SCPEnvelope) : Nat :=
  es.countP (fun e => isNominateSt e.statement)

/-- A current ballot statement is never a NOMINATE. -/
theorem currentStatement_not_nominate (localQ : SCPQuorumSet)
    (bs : BallotState) (st : SCPStatement)
    (h : currentStatement localQ bs = some st) : isNominateSt st = false := by
  unfold currentStatement at h
  cases hb : bs.b with
  | none =>
    rw [hb] at h
    exact absurd h (by simp)
  | some bb =>
    rw [hb] at h
    cases hph : bs.phase with
    | prepare =>
      rw [hph] at h
      injection h with h1
      rw [← h1]
      rfl
    | confirm =>
      rw [hph] at h
      injection h with h1
      rw [← h1]
      rfl
    | externalize =>
      rw [hph] at h
      injection h with h1
      rw [← h1]
      rfl

/-- `emitIfChanged` appends no NOMINATE. -/
theorem emitIfChanged_countNom (d : TestSCP) (s : SlotState) :
    countNominates (emitIfChanged d s).emissions =
      countNominates s.emissions := by
  unfold emitIfChanged
  cases hcur : currentStatement d.localQSet s.bal with
  | none => rfl
  | some st =>
    dsimp only
    by_cases hsame : (match s.bal.lastEmitted with
        | some e0 => stmtBeq e0 st
        | none => false) = true
    · rw [if_pos hsame]
    · rw [if_neg hsame]
      show countNominates (s.emissions ++ [⟨d.localID, st⟩]) =
        countNominates s.emissions
      unfold countNominates
      rw [List.countP_append]
      have hn := currentStatement_not_nominate d.localQSet s.bal st hcur
      simp [List.countP_cons, hn]

/-- `advanceAndEmit` appends no NOMINATE. -/
theorem advanceAndEmit_countNom (d : TestSCP) (s : SlotState) :
    countNominates (advanceAndEmit d s).emissions =
      countNominates s.emissions := by
  unfold advanceAndEmit
  rw [emitIfChanged_countNom]
  unfold countNominates
  rw [checkHeard_emissions, recordExternalized_emissions]

/-- `bumpState` appends no NOMINATE. -/
theorem bumpState_countNom (d : TestSCP) (v : Value) (force : Bool)
    (s : SlotState) :
    countNominates (bumpState d v force s).1.emissions =
      countNominates s.emissions := by
  unfold bumpState
  by_cases hph : (s.bal.phase == SCPPhase.externalize) = true
  · rw [hph]
    rfl
  · rw [Bool.not_eq_true] at hph
    rw [hph]
    cases hb : s.bal.b with
    | none => exact advanceAndEmit_countNom d _
    | some bb =>
      by_cases hf : force = true
      · rw [hf]
        exact advanceAndEmit_countNom d _
      · rw [Bool.not_eq_true] at hf
        rw [hf]
        rfl

/-- `handleNewCandidates` appends no NOMINATE. -/
theorem handleNewCandidates_countNom (d : TestSCP) (old : List Value)
    (s : SlotState) :
    countNominates (handleNewCandidates d old s).emissions =
      countNominates s.emissions := by
  unfold handleNewCandidates
  by_cases h1 : (s.nom.candidates == old) = true
  · rw [h1]
    rfl
  · rw [Bool.not_eq_true] at h1
    rw [h1]
    by_cases h2 : old.isEmpty = true
    · rw [h2]
      exact bumpState_countNom d _ false _
    · rw [Bool.not_eq_true] at h2
      rw [h2]
      rfl

/-- `emitNominationAlways` appends exactly one NOMINATE. -/
theorem emitNominationAlways_countNom (d : TestSCP) (s : SlotState) :
    countNominates (emitNominationAlways d s).emissions =
      countNominates s.emissions + 1 := by
  unfold emitNominationAlways countNominates
  show List.countP _ (s.emissions ++
    [⟨d.localID, .nominate d.localQSet s.nom.votes s.nom.accepted⟩]) = _
  rw [List.countP_append]
  rfl

/-- `nomPromoteAndEmitAlways` appends exactly one NOMINATE. -/
theorem nomPromoteAndEmitAlways_countNom (d : TestSCP) (s : SlotState) :
    countNominates (nomPromoteAndEmitAlways d s).emissions =
      countNominates s.emissions + 1 := by
  unfold nomPromoteAndEmitAlways
  rw [handleNewCandidates_countNom]
  exact emitNominationAlways_countNom d _

/-- C9: `nominate(slot, value, timedOut)` returns `true` iff the call
emitted a NOMINATE envelope (exactly one); a call returning `false`
emits nothing at all.  In particular, in the `v1 dead, timeout`
scenario, a timed-out round whose new top node (`v3`) has no stored
envelope returns `false` with no emission, while one whose top node's
votes are known (`v2`, votes `[z]`) returns `true` and emits exactly
one NOMINATE. -/
theorem nominate_true_iff_emitted (d : TestSCP) (v : Value) (t : Bool)
    (s : SlotState) :
    (((nominate d v t s).2 = true) ↔
      countNominates (nominate d v t s).1.emissions =
        countNominates s.emissions + 1) ∧
    ((nominate d v t s).2 = false →
      (nominate d v t s).1.emissions = s.emissions) ∧
    (nominate nomV3Top xValue true nomDeadState).2 = false ∧
    (nominate nomV3Top xValue true nomDeadState).1.emissions = [] ∧
    (nominate nomV2Top xValue true nomDeadState).2 = true ∧
    (nominate nomV2Top xValue true nomDeadState).1.emissions =
      [makeNominate 0 qSet5 [zValue] []] := by
  refine ⟨?_, ?_, rfl, rfl, rfl, rfl⟩
  · unfold nominate
    by_cases hv : (nominateNewVotes d v (nomStartRound t s) ==
        (nomStartRound t s).nom.votes) = true
    · rw [hv]
      constructor
      · intro h
        exact Bool.noConfusion h
      · intro h
        have h2 : countNominates s.emissions = countNominates s.emissions + 1 := h
        exact absurd h2 (by omega)
    · rw [Bool.not_eq_true] at hv
      rw [hv]
      constructor
      · intro _
        exact nomPromoteAndEmitAlways_countNom d _
      · intro _
        rfl
  · unfold nominate
    by_cases hv : (nominateNewVotes d v (nomStartRound t s) ==
        (nomStartRound t s).nom.votes) = true
    · rw [hv]
      intro _
      rfl
    · rw [Bool.not_eq_true] at hv
      rw [hv]
      intro h
      exact Bool.noConfusion h

/-- Witness for `nominate_true_iff_emitted`, at the `v2 is new top
node` call (which returns `true`): the call emitted exactly one new
NOMINATE. -/
theorem nominate_true_iff_emitted_witness :
    countNominates (nominate nomV2Top xValue true nomDeadState).1.emissions =
      countNominates nomDeadState.emissions + 1 :=
  (nominate_true_iff_emitted nomV2Top xValue true nomDeadState).1.mp rfl
